import Mathlib

/-!
Verification development for the FlowShield constraint validation and repair
engine (src/flowshield). The Python code is shallowly embedded: Python floats
are modelled by the type `F` (finite rationals plus `nan`, `inf`, `ninf`;
floating-point rounding of arithmetic is idealised to exact rational
arithmetic, which is faithful for every comparison and branch exercised by the
theorems below), dynamically typed cell values by `Val`, rows by total lookup
functions (`Row`, for the repair engine, whose caller guarantees that every
referenced column is present) respectively partial association lists (`PRow`,
for the validation engine, where a missing column is observable and Python
`KeyError` is modelled by the `Except` monad). The mutation of `rule.params`
performed by `repair_relation` is modelled by returning the possibly updated
rule. Numeric strings are modelled as non-numeric (Python would parse "3.5";
no theorem below depends on string-to-float parsing), and the decorative
`repr`-style expected/message strings of violations are reproduced exactly
where a theorem depends on them (category joins) and approximated elsewhere.
-/

namespace FlowShield

/-- Model of a Python float: NaN, the two infinities, or a finite value
(idealised as a rational). -/
inductive F where
  | nan : F
  | ninf : F
  | inf : F
  | fin (q : ℚ) : F
deriving DecidableEq

/-- IEEE `<` on floats: any comparison with NaN is false. -/
def flt : F → F → Bool
  | .nan, _ => false
  | _, .nan => false
  | .ninf, .ninf => false
  | .ninf, _ => true
  | _, .ninf => false
  | .inf, _ => false
  | .fin _, .inf => true
  | .fin a, .fin b => a < b

/-- IEEE `<=` on floats: false when either side is NaN. -/
def fle (a b : F) : Bool :=
  if a = .nan ∨ b = .nan then false else flt a b || a == b

/-- IEEE `>=`. -/
def fge (a b : F) : Bool := fle b a

/-- Python `!=` on floats: NaN is unequal to everything, itself included. -/
def fne (a b : F) : Bool :=
  if a = .nan ∨ b = .nan then true else a != b

/-- Python `max(a, b)`: returns `b` exactly when `b > a` (first argument wins
on NaN and ties). -/
def pymax (a b : F) : F := if flt a b then b else a

/-- Python `min(a, b)`: returns `b` exactly when `b < a`. -/
def pymin (a b : F) : F := if flt b a then b else a

/-- Float negation. -/
def fneg : F → F
  | .nan => .nan
  | .ninf => .inf
  | .inf => .ninf
  | .fin q => .fin (-q)

/-- Float addition (NaN propagates; `inf + ninf = nan`). -/
def fadd : F → F → F
  | .nan, _ => .nan
  | _, .nan => .nan
  | .inf, .ninf => .nan
  | .ninf, .inf => .nan
  | .inf, _ => .inf
  | _, .inf => .inf
  | .ninf, _ => .ninf
  | _, .ninf => .ninf
  | .fin a, .fin b => .fin (a + b)

/-- Float subtraction. -/
def fsub (a b : F) : F := fadd a (fneg b)

/-- Float multiplication (`inf * 0 = nan`). -/
def fmul : F → F → F
  | .nan, _ => .nan
  | _, .nan => .nan
  | .inf, .inf => .inf
  | .inf, .ninf => .ninf
  | .ninf, .inf => .ninf
  | .ninf, .ninf => .inf
  | .inf, .fin q => if q = 0 then .nan else if 0 < q then .inf else .ninf
  | .ninf, .fin q => if q = 0 then .nan else if 0 < q then .ninf else .inf
  | .fin q, .inf => if q = 0 then .nan else if 0 < q then .inf else .ninf
  | .fin q, .ninf => if q = 0 then .nan else if 0 < q then .ninf else .inf
  | .fin a, .fin b => .fin (a * b)

/-- Float division. Python raises `ZeroDivisionError` on division of a float
by exactly `0.0`; this total model returns `nan` there, and the `Except`-based
validation embedding below models the raise explicitly. No theorem exercises
the zero branch of this total version. -/
def fdiv : F → F → F
  | .nan, _ => .nan
  | _, .nan => .nan
  | .fin a, .fin b => if b = 0 then .nan else .fin (a / b)
  | .inf, .fin b => if b = 0 then .nan else if 0 < b then .inf else .ninf
  | .ninf, .fin b => if b = 0 then .nan else if 0 < b then .ninf else .inf
  | .fin _, .inf => .fin 0
  | .fin _, .ninf => .fin 0
  | .inf, .inf => .nan
  | .inf, .ninf => .nan
  | .ninf, .inf => .nan
  | .ninf, .ninf => .nan

/-- `np.isfinite`. -/
def npIsFinite : F → Bool
  | .fin _ => true
  | _ => false

/-- `np.floor` on floats (total on NaN and infinities). -/
def fFloor : F → F
  | .nan => .nan
  | .ninf => .ninf
  | .inf => .inf
  | .fin q => .fin ⌊q⌋

/-- `np.ceil` on floats. -/
def fCeil : F → F
  | .nan => .nan
  | .ninf => .ninf
  | .inf => .inf
  | .fin q => .fin ⌈q⌉

/-- Round half to even on rationals (the tie-breaking rule of `np.round` and
of the Python builtin `round`). -/
def bankerRound (q : ℚ) : ℤ :=
  let f : ℤ := ⌊q⌋
  let r : ℚ := q - f
  if r < 1/2 then f
  else if 1/2 < r then f + 1
  else if Even f then f else f + 1

/-- `np.round` (half to even) on floats. -/
def fRound : F → F
  | .nan => .nan
  | .ninf => .ninf
  | .inf => .inf
  | .fin q => .fin (bankerRound q)

/-- Display form of a float used inside violation `expected` strings. The
Python code interpolates `repr` of floats; the rendering is approximated (no
theorem depends on these strings apart from category joins, which do not use
floats). -/
def fRepr : F → String
  | .nan => "nan"
  | .ninf => "-inf"
  | .inf => "inf"
  | .fin q => toString q.num ++ "/" ++ toString q.den

/-- A dynamically typed cell value: a float, a string, a bool, or Python
`None`. -/
inductive Val where
  | fl (x : F) : Val
  | vstr (s : String) : Val
  | vbool (b : Bool) : Val
  | vnone : Val
deriving DecidableEq

/-- `pd.isna` on a scalar cell. -/
def pdIsNA : Val → Bool
  | .fl .nan => true
  | .vnone => true
  | _ => false

/-- `_safe_float` from rules.py: NaN for missing/NaN-like values, otherwise
`float(value)`. Strings are modelled as non-numeric (see file header). -/
def safeFloat (v : Val) : F :=
  if pdIsNA v then .nan else
  match v with
  | .fl x => x
  | .vbool b => .fin (if b then 1 else 0)
  | .vstr _ => .nan
  | .vnone => .nan

/-- `_coerce_numeric` from repair.py (same observable behaviour as
`_safe_float` on the modelled values). -/
def coerceNumeric (v : Val) : F :=
  match v with
  | .vnone => .nan
  | .vbool b => .fin (if b then 1 else 0)
  | .fl x => x
  | .vstr _ => .nan

/-- Python truthiness of a cell value (`bool(value)`); NaN is truthy. -/
def pyTruthy : Val → Bool
  | .fl (.fin q) => q ≠ 0
  | .fl _ => true
  | .vstr s => s ≠ ""
  | .vbool b => b
  | .vnone => false

/-- Membership of a value in the Python set `{True, False, 0, 1}` (numeric
equality: `0.0` and `1.0` are members). -/
def pyBoolLit : Val → Bool
  | .vbool _ => true
  | .fl (.fin q) => q = 0 ∨ q = 1
  | _ => false

/-- Python `isinstance(value, str)`. -/
def isStr : Val → Bool
  | .vstr _ => true
  | _ => false

/-- Membership of a dynamically typed value in a string list (Python `in` on
a list of strings; non-strings are never equal to a string). -/
def valInCats (v : Val) (cs : List String) : Bool :=
  match v with
  | .vstr s => cs.contains s
  | _ => false

/-- A value of a rule-parameter mapping (`Dict[str, object]`): a string, a
float, a column list, or a small constraint mapping. -/
inductive PVal where
  | s (v : String) : PVal
  | f (x : F) : PVal
  | b (v : Bool) : PVal
  | strs (cs : List String) : PVal
  | cmap (entries : List (String × F)) : PVal
deriving DecidableEq

/-- A parameter dictionary. -/
abbrev Params := List (String × PVal)

/-- `params.get(k)`. -/
def pget (ps : Params) (k : String) : Option PVal :=
  (ps.find? (fun kv => kv.1 == k)).map (fun kv => kv.2)

/-- `str(params.get(k))`: Python renders a missing key as "None". Non-string
present values are rendered approximately (unused by theorems). -/
def pgetStr (ps : Params) (k : String) : String :=
  match pget ps k with
  | some (.s v) => v
  | some _ => ""
  | none => "None"

/-- `str(params.get(k, d))` for a string default. -/
def pgetStrD (ps : Params) (k d : String) : String :=
  match pget ps k with
  | some (.s v) => v
  | some _ => ""
  | none => d

/-- `float(params.get(k, d))` for a float default. -/
def pgetF (ps : Params) (k : String) (d : F) : F :=
  match pget ps k with
  | some (.f x) => x
  | some _ => d
  | none => d

/-- `params.get(k, [])` for a column list. -/
def pgetCols (ps : Params) (k : String) : List String :=
  match pget ps k with
  | some (.strs cs) => cs
  | _ => []

/-- Python truthiness of a parameter value. -/
def pvTruthy : PVal → Bool
  | .b v => v
  | .s v => v ≠ ""
  | .f (.fin q) => q ≠ 0
  | .f _ => true
  | .strs cs => cs ≠ []
  | .cmap es => es ≠ []

/-- The five relation rule kinds (profile.py `RelationRuleType`). -/
inductive RelationRuleType where
  | sum_bounds : RelationRuleType
  | order : RelationRuleType
  | ratio_bounds : RelationRuleType
  | if_then : RelationRuleType
  | nondecreasing_group : RelationRuleType
deriving DecidableEq

/-- profile.py `RelationRule`. -/
structure RelationRule where
  name : String
  type : RelationRuleType
  params : Params
  message : String
  severity : String := "warn"
  repair_strategy : String := "none"
deriving DecidableEq

/-- profile.py `ConstraintProfile`. The two policy dictionaries are modelled
as association lists of dynamically typed values, like rule params. -/
structure ConstraintProfile where
  name : String := ""
  description : String := ""
  numeric_policy : List (String × PVal) := []
  int_policy : List (String × PVal) := []
  relation_rules : List RelationRule := []
  severity_map : List (String × String) := []
  repair_mode : String := "safe"
  deterministic_seed : Int := 1337

/-- schema.py `FeatureColumn`. -/
structure FeatureColumn where
  name : String
  dtype : String
  minimum : Option ℚ := none
  maximum : Option ℚ := none
  integer_only : Bool := false
  non_negative : Bool := false
  nullable : Bool := false
  categories : Option (List String) := none
deriving DecidableEq

/-- The observed value recorded in a violation (`Any` in the source). -/
inductive ObservedValue where
  | fnum (x : F) : ObservedValue
  | vv (v : Val) : ObservedValue
  | pairLR (l : String) (lv : F) (r : String) (rv : F) : ObservedValue
deriving DecidableEq

/-- rules.py `ConstraintViolation`. -/
structure ConstraintViolation where
  row_index : Nat
  column : Option String
  rule_name : String
  violation_type : String
  severity : String
  observed_value : ObservedValue
  expected : String
  message : String
deriving DecidableEq

/-- rules.py `RepairAction`. -/
structure RepairAction where
  row_index : Nat
  column : String
  old_value : Val
  new_value : Val
  reason : String
  rule_name : String
  strategy : String
  delta : Option F := none
deriving DecidableEq

/-- A dataframe row for the repair engine: the pandas index label (`row.name`)
plus a total mapping from column name to value (the caller guarantees that
every column referenced by schema or rules is present, spec section 3). -/
structure Row where
  name : Nat
  vals : String → Val

instance : Inhabited Row := ⟨⟨0, fun _ => .vnone⟩⟩

/-- `row[c] = v`. -/
def updateRow (r : Row) (c : String) (v : Val) : Row :=
  { r with vals := fun c' => if c' = c then v else r.vals c' }

/-- Per-column bound metadata extracted by `bounds_from_schema`; a column
absent from the dictionary behaves like an entry with both bounds absent. -/
structure BoundsEntry where
  bmin : Option ℚ := none
  bmax : Option ℚ := none

/-- The bounds dictionary. -/
abbrev Bounds := String → BoundsEntry

/-- `bounds.get(c, {}).get("min", -np.inf)`. -/
def bMinF (b : BoundsEntry) : F :=
  match b.bmin with
  | some m => .fin m
  | none => .ninf

/-- `bounds.get(c, {}).get("max", np.inf)`. -/
def bMaxF (b : BoundsEntry) : F :=
  match b.bmax with
  | some m => .fin m
  | none => .inf

/-- rules.py `bounds_from_schema`, applied to `{c.name: c.model_dump()}` as in
repair.py: min is lifted to at least 0 for non-negative columns. For a
duplicate column name the later entry wins (dict comprehension). -/
def boundsFromSchema (cols : List FeatureColumn) : Bounds := fun n =>
  match cols.reverse.find? (fun c => c.name == n) with
  | some c =>
      { bmin := if c.non_negative then some (max 0 (c.minimum.getD 0)) else c.minimum
        bmax := c.maximum }
  | none => {}

/-- `np.nansum` of a list of floats (NaN counts as 0; fold from 0). -/
def nansum (xs : List F) : F :=
  xs.foldl (fun acc x => fadd acc (if x = .nan then .fin 0 else x)) (.fin 0)

/-- The 1e-9 tolerance of the nondecreasing check. -/
def eps9 : F := .fin (1/1000000000)

/-- Approximate rendering of a Python list of strings used in the
nondecreasing violation `expected` field (no theorem depends on it). -/
def listRepr (cs : List String) : String :=
  "[" ++ String.intercalate ", " cs ++ "]"

/-- The inner loop of `evaluate_relation` for NONDECREASING_GROUP: walk the
columns, report the first value more than 1e-9 below its predecessor and stop
(the running comparison value is the previous element, updated each step). -/
def nondecEval (row : Row) (rule : RelationRule) (cols : List String)
    (prev : F) : Bool × Option ConstraintViolation :=
  match cols with
  | [] => (true, none)
  | c :: cs =>
      let val := safeFloat (row.vals c)
      if flt val (fsub prev eps9) then
        (false, some
          { row_index := row.name
            column := some c
            rule_name := rule.name
            violation_type := "nondecreasing"
            severity := rule.severity
            observed_value := .vv (row.vals c)
            expected := listRepr (pgetCols rule.params "columns")
            message := rule.message })
      else nondecEval row rule cs val

/-- rules.py `evaluate_relation` (the third component of the source's return
value, the numeric values of string-valued params present in the row, is
discarded by every caller and omitted here). -/
def evaluateRelation (row : Row) (rule : RelationRule) :
    Bool × Option ConstraintViolation :=
  match rule.type with
  | .sum_bounds =>
      let columns := pgetCols rule.params "columns"
      let total := nansum (columns.map (fun c => safeFloat (row.vals c)))
      let minimum := pgetF rule.params "min" .ninf
      let maximum := pgetF rule.params "max" .inf
      if flt total minimum || flt maximum total then
        (false, some
          { row_index := row.name
            column := none
            rule_name := rule.name
            violation_type := "sum_bounds"
            severity := rule.severity
            observed_value := .fnum total
            expected := fRepr minimum ++ " <= sum(" ++
              String.intercalate "," columns ++ ") <= " ++ fRepr maximum
            message := rule.message })
      else (true, none)
  | .order =>
      let left := pgetStr rule.params "left"
      let right := pgetStr rule.params "right"
      let operator := pgetStrD rule.params "operator" ">="
      let lv := safeFloat (row.vals left)
      let rv := safeFloat (row.vals right)
      let ok := if operator == ">=" then fge lv rv
                else if operator == "<=" then fle lv rv
                else true
      if ok then (true, none)
      else
        (false, some
          { row_index := row.name
            column := none
            rule_name := rule.name
            violation_type := "order"
            severity := rule.severity
            observed_value := .pairLR left lv right rv
            expected := left ++ " " ++ operator ++ " " ++ right
            message := rule.message })
  | .ratio_bounds =>
      let num := pgetStr rule.params "numerator"
      let den := pgetStr rule.params "denominator"
      let eps := pgetF rule.params "eps" (.fin (1/1000000))
      let rv := safeFloat (row.vals den)
      let ratio := fdiv (safeFloat (row.vals num)) (fadd rv eps)
      let minimum := pgetF rule.params "min" .ninf
      let maximum := pgetF rule.params "max" .inf
      if flt ratio minimum || flt maximum ratio then
        (false, some
          { row_index := row.name
            column := none
            rule_name := rule.name
            violation_type := "ratio_bounds"
            severity := rule.severity
            observed_value := .fnum ratio
            expected := fRepr minimum ++ " <= " ++ num ++ "/" ++ den ++
              " <= " ++ fRepr maximum
            message := rule.message })
      else (true, none)
  | .if_then =>
      let feature := pgetStr rule.params "if_feature"
      let op := pgetStrD rule.params "op" ">="
      let value := pgetF rule.params "value" (.fin 0)
      let then_feature := pgetStr rule.params "then_feature"
      let constraint := (pget rule.params "constraint").getD (.s "non_negative")
      let fv := safeFloat (row.vals feature)
      let condition := (op == ">=" && fge fv value) || (op == "<=" && fle fv value)
      if condition then
        let target := safeFloat (row.vals then_feature)
        let res : Bool × String :=
          match constraint with
          | .s c =>
              if c == "non_negative" && flt target (.fin 0) then
                (true, then_feature ++ " >= 0 when " ++ feature ++ " " ++ op ++
                  " " ++ fRepr value)
              else (false, "")
          | .cmap es =>
              match (es.find? (fun kv => kv.1 == "min")).map (fun kv => kv.2) with
              | some m =>
                  if flt target m then
                    (true, then_feature ++ " >= " ++ fRepr m ++ " when condition met")
                  else (false, "")
              | none =>
                  match (es.find? (fun kv => kv.1 == "max")).map (fun kv => kv.2) with
                  | some M =>
                      if flt M target then
                        (true, then_feature ++ " <= " ++ fRepr M ++ " when condition met")
                      else (false, "")
                  | none => (false, "")
          | _ => (false, "")
        if res.1 then
          (false, some
            { row_index := row.name
              column := some then_feature
              rule_name := rule.name
              violation_type := "if_then"
              severity := rule.severity
              observed_value := .vv (row.vals then_feature)
              expected := res.2
              message := rule.message })
        else (true, none)
      else (true, none)
  | .nondecreasing_group =>
      nondecEval row rule (pgetCols rule.params "columns") .ninf

/-- Python `!=` between a float (left) and an arbitrary cell value (right):
numeric values compare numerically (`0.0 == False`), everything else is
unequal to a float. -/
def vneF (x : F) (v : Val) : Bool :=
  match v with
  | .fl y => fne x y
  | .vbool b => fne x (.fin (if b then 1 else 0))
  | _ => true

/-- The ORDER `>=` repair body (rules.py lines 197-250), shared by the direct
`>=` case and by the unrolled recursive call after the `<=` parameter swap. -/
def orderRepairGE (row : Row) (rule : RelationRule) (profile : ConstraintProfile)
    (bounds : Bounds) (violation : Option ConstraintViolation) :
    Row × List RepairAction :=
  let left := pgetStr rule.params "left"
  let right := pgetStr rule.params "right"
  let lv := safeFloat (row.vals left)
  let rv := safeFloat (row.vals right)
  let reason := match violation with
    | some v => v.message
    | none => "order repair"
  if profile.repair_mode == "safe" then
    let target := pymax lv rv
    let new_lv :=
      if npIsFinite (bMaxF (bounds left)) then
        let a := pymax rv (match (bounds left).bmin with
          | some m => .fin m
          | none => rv)
        pymin a (match (bounds left).bmax with
          | some M => .fin M
          | none => a)
      else target
    if vneF new_lv (row.vals left) then
      (updateRow row left (.fl new_lv),
       [{ row_index := row.name, column := left, old_value := row.vals left,
          new_value := .fl new_lv, reason := reason, rule_name := rule.name,
          strategy := rule.repair_strategy, delta := some (fsub new_lv lv) }])
    else (row, [])
  else
    let midpoint := fdiv (fadd lv rv) (.fin 2)
    let new_lv := pymax midpoint (bMinF (bounds left))
    let new_rv := pymin midpoint (bMaxF (bounds right))
    let step1 : Row × List RepairAction :=
      if vneF new_lv (row.vals left) then
        (updateRow row left (.fl new_lv),
         [{ row_index := row.name, column := left, old_value := row.vals left,
            new_value := .fl new_lv, reason := reason, rule_name := rule.name,
            strategy := rule.repair_strategy, delta := some (fsub new_lv lv) }])
      else (row, [])
    if vneF new_rv (step1.1.vals right) then
      (updateRow step1.1 right (.fl new_rv),
       step1.2 ++
       [{ row_index := row.name, column := right, old_value := step1.1.vals right,
          new_value := .fl new_rv, reason := reason, rule_name := rule.name,
          strategy := rule.repair_strategy, delta := some (fsub new_rv rv) }])
    else (step1.1, step1.2)

/-- The "raise toward minimum" loop of SUM_BOUNDS repair: add the even share
to every column, capped at that column's max bound; an action is logged for
every column, changed or not. -/
def sumRaise (rule : RelationRule) (share : F) (bounds : Bounds) :
    List String → Row → Row × List RepairAction
  | [], row => (row, [])
  | c :: cs, row =>
      let old := safeFloat (row.vals c)
      let new_val := pymin (fadd old share) (bMaxF (bounds c))
      let act : RepairAction :=
        { row_index := row.name, column := c, old_value := row.vals c,
          new_value := .fl new_val, reason := "sum_bounds repair",
          rule_name := rule.name, strategy := rule.repair_strategy,
          delta := some (fsub new_val old) }
      let r2 := sumRaise rule share bounds cs (updateRow row c (.fl new_val))
      (r2.1, act :: r2.2)

/-- The "lower toward maximum" loop of SUM_BOUNDS repair: subtract the even
share, floored at each column's min bound. -/
def sumLower (rule : RelationRule) (share : F) (bounds : Bounds) :
    List String → Row → Row × List RepairAction
  | [], row => (row, [])
  | c :: cs, row =>
      let old := safeFloat (row.vals c)
      let new_val := pymax (fsub old share) (bMinF (bounds c))
      let act : RepairAction :=
        { row_index := row.name, column := c, old_value := row.vals c,
          new_value := .fl new_val, reason := "sum_bounds repair",
          rule_name := rule.name, strategy := rule.repair_strategy,
          delta := some (fsub new_val old) }
      let r2 := sumLower rule share bounds cs (updateRow row c (.fl new_val))
      (r2.1, act :: r2.2)

/-- The prefix-max smoothing loop of NONDECREASING_GROUP repair (rules.py
lines 344-351): a value strictly below the running maximum is replaced by it,
any other value (NaN included) is kept and becomes the new running
comparison value. -/
def nondecCorrect (cmax : F) : List F → List F
  | [] => []
  | v :: vs => if flt v cmax then cmax :: nondecCorrect cmax vs
               else v :: nondecCorrect v vs

/-- The write-back loop of NONDECREASING_GROUP repair (rules.py lines
352-366) over the zipped (column, old, corrected) triples: write and log only
when the corrected value is Python-`!=` the old one. -/
def nondecWrite (rule : RelationRule) (row : Row) :
    List (String × F × F) → Row × List RepairAction
  | [] => (row, [])
  | (c, old, new_val) :: rest =>
      if fne new_val old then
        let act : RepairAction :=
          { row_index := row.name, column := c, old_value := row.vals c,
            new_value := .fl new_val, reason := "nondecreasing repair",
            rule_name := rule.name, strategy := rule.repair_strategy,
            delta := some (fsub new_val old) }
        let res := nondecWrite rule (updateRow row c (.fl new_val)) rest
        (res.1, act :: res.2)
      else nondecWrite rule row rest

/-- rules.py `repair_relation`. The source mutates the shared `rule` object
in the ORDER `<=` branch (`rule.params = {...}`) and recurses; the mutation is
modelled by returning the possibly updated rule, and the recursion (depth at
most two, since the swapped rule has operator `>=`) is unrolled. IF_THEN has
no repair branch: the row is returned unchanged with no actions. -/
def repairRelation (row : Row) (rule : RelationRule) (profile : ConstraintProfile)
    (bounds : Bounds) : Row × RelationRule × List RepairAction :=
  let ev := evaluateRelation row rule
  if ev.1 || rule.repair_strategy == "none" then (row, rule, [])
  else
    match rule.type with
    | .order =>
        let operator := pgetStrD rule.params "operator" ">="
        if operator == ">=" then
          let res := orderRepairGE row rule profile bounds ev.2
          (res.1, rule, res.2)
        else if operator == "<=" then
          let left := pgetStr rule.params "left"
          let right := pgetStr rule.params "right"
          let rule2 : RelationRule := { rule with params :=
            [("left", .s right), ("right", .s left), ("operator", .s ">=")] }
          let ev2 := evaluateRelation row rule2
          if ev2.1 || rule2.repair_strategy == "none" then (row, rule2, [])
          else
            let res := orderRepairGE row rule2 profile bounds ev2.2
            (res.1, rule2, res.2)
        else (row, rule, [])
    | .sum_bounds =>
        let columns := pgetCols rule.params "columns"
        let minimum := pgetF rule.params "min" .ninf
        let maximum := pgetF rule.params "max" .inf
        let current := nansum (columns.map (fun c => safeFloat (row.vals c)))
        if flt current minimum then
          let deficit := fsub minimum current
          let share := fdiv deficit (.fin columns.length)
          let res := sumRaise rule share bounds columns row
          (res.1, rule, res.2)
        else if flt maximum current then
          let surplus := fsub current maximum
          let share := fdiv surplus (.fin columns.length)
          let res := sumLower rule share bounds columns row
          (res.1, rule, res.2)
        else (row, rule, [])
    | .ratio_bounds =>
        let num := pgetStr rule.params "numerator"
        let den := pgetStr rule.params "denominator"
        let eps := pgetF rule.params "eps" (.fin (1/1000000))
        let minimum := pgetF rule.params "min" .ninf
        let maximum := pgetF rule.params "max" .inf
        let rv := safeFloat (row.vals den)
        let ratio := fdiv (safeFloat (row.vals num)) (fadd rv eps)
        if flt ratio minimum then
          let desired := fmul minimum (fadd rv eps)
          (updateRow row num (.fl desired), rule,
           [{ row_index := row.name, column := num, old_value := row.vals num,
              new_value := .fl desired, reason := "ratio lower bound",
              rule_name := rule.name, strategy := rule.repair_strategy,
              delta := some (fsub desired (safeFloat (row.vals num))) }])
        else if flt maximum ratio then
          let desired := fmul maximum (fadd rv eps)
          (updateRow row num (.fl desired), rule,
           [{ row_index := row.name, column := num, old_value := row.vals num,
              new_value := .fl desired, reason := "ratio upper bound",
              rule_name := rule.name, strategy := rule.repair_strategy,
              delta := some (fsub desired (safeFloat (row.vals num))) }])
        else (row, rule, [])
    | .if_then => (row, rule, [])
    | .nondecreasing_group =>
        let columns := pgetCols rule.params "columns"
        let values := columns.map (fun c => safeFloat (row.vals c))
        let corrected := nondecCorrect .ninf values
        let res := nondecWrite rule row (columns.zip (values.zip corrected))
        (res.1, rule, res.2)

/-- repair.py `RepairContext` (the fitted imputation statistics; the fit step
`update_stats` is not needed by any claim). -/
structure RepairContext where
  impute_stats : List (String × F) := []

/-- repair.py `RepairContext.get_impute_value`. -/
def getImputeValue (ctx : RepairContext) (colName strategy : String) : F :=
  if strategy == "zero" then .fin 0
  else if strategy == "mean" then
    (((ctx.impute_stats.find? (fun kv => kv.1 == colName)).map
      (fun kv => kv.2)).getD (.fin 0))
  else if strategy == "median" then
    (((ctx.impute_stats.find? (fun kv => kv.1 == colName)).map
      (fun kv => kv.2)).getD (.fin 0))
  else .fin 0

/-- repair.py `_round_value`. -/
def roundValue (value : F) (strategy : String) : F :=
  if strategy == "floor" then fFloor value
  else if strategy == "ceil" then fCeil value
  else fRound value

/-- `profile.numeric_policy.get("clip", False)` under Python truthiness. -/
def clipEnabled (profile : ConstraintProfile) : Bool :=
  match pget profile.numeric_policy "clip" with
  | some pv => pvTruthy pv
  | none => false

/-- `profile.numeric_policy.get("nan_policy") == "impute"` (no default: a
missing key is `None`, which is not equal to "impute"). -/
def nanPolicyIsImpute (profile : ConstraintProfile) : Bool :=
  match pget profile.numeric_policy "nan_policy" with
  | some (.s s) => s == "impute"
  | _ => false

/-- Step 2 of the numeric column repair: clip a negative value of a
non-negative column to `max(0.0, numeric)`. -/
def nonnegStep (col : FeatureColumn) (n : F) : F :=
  if col.non_negative && flt n (.fin 0) then pymax (.fin 0) n else n

/-- Step 3: clip below the declared minimum when clipping is enabled. -/
def minClipStep (col : FeatureColumn) (profile : ConstraintProfile) (n : F) : F :=
  match col.minimum with
  | some m => if flt n (.fin m) && clipEnabled profile then .fin m else n
  | none => n

/-- Step 4: clip above the declared maximum when clipping is enabled. -/
def maxClipStep (col : FeatureColumn) (profile : ConstraintProfile) (n : F) : F :=
  match col.maximum with
  | some M => if flt (.fin M) n && clipEnabled profile then .fin M else n
  | none => n

/-- The value produced by the three clipping steps of the column-level repair
pass (repair.py lines 93-140), before integer rounding. -/
def clipNumeric (col : FeatureColumn) (profile : ConstraintProfile) (n : F) : F :=
  maxClipStep col profile (minClipStep col profile (nonnegStep col n))

/-- The column-level repair of one cell (repair.py lines 71-191): the final
value stored in `repaired.at[idx, col.name]` together with the logged
actions. A NaN numeric cell under a non-impute policy is skipped
(`continue`), leaving the original value. -/
def repairCell (idx : Nat) (col : FeatureColumn) (value : Val)
    (profile : ConstraintProfile) (ctx : RepairContext) :
    Val × List RepairAction :=
  if col.dtype == "float" || col.dtype == "int" then
    let n0 := coerceNumeric value
    if n0 == F.nan && !(nanPolicyIsImpute profile) then (value, [])
    else
      let imputed := getImputeValue ctx col.name
        (pgetStr profile.numeric_policy "impute")
      let n1 := if n0 == F.nan then imputed else n0
      let cell1 : Val := if n0 == F.nan then .fl imputed else value
      let acts1 : List RepairAction :=
        if n0 == F.nan then
          [{ row_index := idx, column := col.name, old_value := value,
             new_value := .fl imputed, reason := "impute",
             rule_name := "nan_policy",
             strategy := pgetStr profile.numeric_policy "impute",
             delta := none }]
        else []
      let fired2 := col.non_negative && flt n1 (.fin 0)
      let n2 := nonnegStep col n1
      let acts2 := acts1 ++ (if fired2 then
          [{ row_index := idx, column := col.name, old_value := value,
             new_value := .fl n2, reason := "non_negative",
             rule_name := "non_negative", strategy := "clip",
             delta := some (fsub n2 (coerceNumeric value)) }] else [])
      let fired3 := match col.minimum with
        | some m => flt n2 (.fin m) && clipEnabled profile
        | none => false
      let n3 := minClipStep col profile n2
      let acts3 := acts2 ++ (if fired3 then
          [{ row_index := idx, column := col.name, old_value := value,
             new_value := .fl n3, reason := "min_clip",
             rule_name := "min_check", strategy := "clip",
             delta := some (fsub n3 (coerceNumeric value)) }] else [])
      let fired4 := match col.maximum with
        | some M => flt (.fin M) n3 && clipEnabled profile
        | none => false
      let n4 := maxClipStep col profile n3
      let acts4 := acts3 ++ (if fired4 then
          [{ row_index := idx, column := col.name, old_value := value,
             new_value := .fl n4, reason := "max_clip",
             rule_name := "max_check", strategy := "clip",
             delta := some (fsub n4 (coerceNumeric value)) }] else [])
      let cell4 : Val := if fired2 || fired3 || fired4 then .fl n4 else cell1
      if col.integer_only || col.dtype == "int" then
        let rounded := roundValue n4 (pgetStrD profile.int_policy "rounding" "nearest")
        if fne rounded n4 then
          (.fl rounded, acts4 ++
           [{ row_index := idx, column := col.name, old_value := value,
              new_value := .fl rounded, reason := "integer_only",
              rule_name := "integer_check",
              strategy := pgetStr profile.int_policy "rounding",
              delta := some (fsub rounded (coerceNumeric value)) }])
        else (cell4, acts4)
      else (cell4, acts4)
  else if col.dtype == "bool" then
    if pyBoolLit value then (.vbool (pyTruthy value), [])
    else if profile.repair_mode == "aggressive" then
      (.vbool (pyTruthy value),
       [{ row_index := idx, column := col.name, old_value := value,
          new_value := .vbool (pyTruthy value), reason := "coerce bool",
          rule_name := "bool_check", strategy := "coerce", delta := none }])
    else (value, [])
  else if col.dtype == "categorical" then
    let outOfSet := match col.categories with
      | some cs => !cs.isEmpty && !valInCats value cs
      | none => false
    if outOfSet then
      if profile.repair_mode == "aggressive" then
        (.vnone,
         [{ row_index := idx, column := col.name, old_value := value,
            new_value := .vnone, reason := "unknown category",
            rule_name := "category_check", strategy := "nullify",
            delta := none }])
      else (value, [])
    else (value, [])
  else (value, [])

/-- The per-row column loop of `repair_dataframe` (repair.py lines 70-193):
every repaired cell immediately updates the working row, so later columns and
the relation rules observe post-repair values. -/
def repairRowCols (profile : ConstraintProfile) (ctx : RepairContext) :
    List FeatureColumn → Row → Row × List RepairAction
  | [], row => (row, [])
  | col :: rest, row =>
      let res := repairCell row.name col (row.vals col.name) profile ctx
      let r2 := repairRowCols profile ctx rest (updateRow row col.name res.1)
      (r2.1, res.2 ++ r2.2)

/-- The per-row relation loop of `repair_dataframe` (repair.py lines
194-198), threading the rule list because `repair_relation` may mutate a rule
persistently. -/
def repairRowRules (profile : ConstraintProfile) (bounds : Bounds) :
    List RelationRule → Row → Row × List RelationRule × List RepairAction
  | [], row => (row, [], [])
  | rule :: rest, row =>
      let res := repairRelation row rule profile bounds
      let r2 := repairRowRules profile bounds rest res.1
      (r2.1, res.2.1 :: r2.2.1, res.2.2 ++ r2.2.2)

/-- repair.py `repair_dataframe`. `repaired = df.copy(deep=True)` is a value
copy. Every write of the source targets `repaired` (directly, or through the
working row copy that is re-synced with `repaired` at line 193 and via the
relation action values at line 197), and every mutation of `repaired` within
a row is mirrored in the working row, so the row stored for index `i` equals
the fully processed working row. The rule mutation performed by
`repair_relation` persists across rows and is threaded through the fold. A
default integer index is assumed (the `iterrows` label of a row equals its
position). -/
def repairDataframe (df : List Row) (schema : List FeatureColumn)
    (profile : ConstraintProfile) (ctx : RepairContext)
    (keepActions : Bool := true) : List Row × List RepairAction :=
  let bounds := boundsFromSchema schema
  let step := fun (st : List Row × List RelationRule × List RepairAction)
      (i : Nat) =>
    let row := st.1.getD i default
    let res1 := repairRowCols profile ctx schema row
    let res2 := repairRowRules profile bounds st.2.1 res1.1
    (st.1.set i res2.1, res2.2.1, st.2.2 ++ res1.2 ++ res2.2.2)
  let res := (List.range df.length).foldl step (df, profile.relation_rules, [])
  (res.1, if keepActions then res.2.2 else [])

/-- Heap-level rendering of `repair_dataframe` for the aliasing claim:
dataframes live in a store of references and the caller passes a reference.
Line 65 (`repaired = df.copy(deep=True)`) allocates a fresh frame holding a
value copy of the input; every subsequent write of the source targets the
fresh frame (see `repairDataframe`), so those writes collapse into its final
value. Had the source aliased instead (`repaired = df`), the writes would
target `dfRef` and the input frame would be overwritten. -/
def repairDataframeRef (store : List (List Row)) (dfRef : Nat)
    (schema : List FeatureColumn) (profile : ConstraintProfile)
    (ctx : RepairContext) (keepActions : Bool := true) :
    List (List Row) × Nat × List RepairAction :=
  let df := store.getD dfRef []
  let res := repairDataframe df schema profile ctx keepActions
  (store ++ [res.1], store.length, res.2)

/-! ### Validation engine

The validation engine observes missing columns, so its rows are partial
mappings and every Python exception it can raise (`KeyError` on a rule
touching an absent column, `ZeroDivisionError` on a float division by exactly
zero, `OverflowError`/`ValueError` from `round` on non-finite values) is
modelled in the `Except` monad. -/

/-- Python exceptions reachable from `validate_dataframe`. -/
inductive PyErr where
  | keyError (k : String) : PyErr
  | zeroDivision : PyErr
  | overflowError : PyErr
  | valueError : PyErr
deriving DecidableEq

/-- A dataset row for the validation engine: pandas label plus a partial
mapping from column name to value. -/
structure PRow where
  name : Nat
  cells : List (String × Val)
deriving DecidableEq

/-- `c in row` / `row.get`: first matching cell. -/
def prGet (r : PRow) (c : String) : Option Val :=
  (r.cells.find? (fun kv => kv.1 == c)).map (fun kv => kv.2)

/-- `row[c]`: raises `KeyError` when the column is absent. -/
def rowE (r : PRow) (c : String) : Except PyErr Val :=
  match prGet r c with
  | some v => .ok v
  | none => .error (.keyError c)

/-- `Except.isOk`. -/
def exIsOk : Except PyErr α → Bool
  | .ok _ => true
  | .error _ => false

/-- The NONDECREASING_GROUP loop of `evaluate_relation` with fallible row
access. -/
def nondecEvalE (row : PRow) (rule : RelationRule) (cols : List String)
    (prev : F) : Except PyErr (Bool × Option ConstraintViolation) :=
  match cols with
  | [] => pure (true, none)
  | c :: cs => do
      let v ← rowE row c
      let val := safeFloat v
      if flt val (fsub prev eps9) then
        pure (false, some
          { row_index := row.name
            column := some c
            rule_name := rule.name
            violation_type := "nondecreasing"
            severity := rule.severity
            observed_value := .vv v
            expected := listRepr (pgetCols rule.params "columns")
            message := rule.message })
      else nondecEvalE row rule cs val

/-- rules.py `evaluate_relation` as called from validate.py: identical rule
logic over partial rows, with `KeyError` and `ZeroDivisionError` explicit. -/
def evaluateRelationE (row : PRow) (rule : RelationRule) :
    Except PyErr (Bool × Option ConstraintViolation) :=
  match rule.type with
  | .sum_bounds => do
      let columns := pgetCols rule.params "columns"
      let vs ← columns.mapM (fun c => rowE row c)
      let total := nansum (vs.map safeFloat)
      let minimum := pgetF rule.params "min" .ninf
      let maximum := pgetF rule.params "max" .inf
      if flt total minimum || flt maximum total then
        pure (false, some
          { row_index := row.name
            column := none
            rule_name := rule.name
            violation_type := "sum_bounds"
            severity := rule.severity
            observed_value := .fnum total
            expected := fRepr minimum ++ " <= sum(" ++
              String.intercalate "," columns ++ ") <= " ++ fRepr maximum
            message := rule.message })
      else pure (true, none)
  | .order => do
      let left := pgetStr rule.params "left"
      let right := pgetStr rule.params "right"
      let operator := pgetStrD rule.params "operator" ">="
      let lvv ← rowE row left
      let rvv ← rowE row right
      let lv := safeFloat lvv
      let rv := safeFloat rvv
      let ok := if operator == ">=" then fge lv rv
                else if operator == "<=" then fle lv rv
                else true
      if ok then pure (true, none)
      else
        pure (false, some
          { row_index := row.name
            column := none
            rule_name := rule.name
            violation_type := "order"
            severity := rule.severity
            observed_value := .pairLR left lv right rv
            expected := left ++ " " ++ operator ++ " " ++ right
            message := rule.message })
  | .ratio_bounds => do
      let num := pgetStr rule.params "numerator"
      let den := pgetStr rule.params "denominator"
      let eps := pgetF rule.params "eps" (.fin (1/1000000))
      let dvv ← rowE row den
      let rv := safeFloat dvv
      let nvv ← rowE row num
      let d := fadd rv eps
      if d == F.fin 0 then throw PyErr.zeroDivision
      else
        let ratio := fdiv (safeFloat nvv) d
        let minimum := pgetF rule.params "min" .ninf
        let maximum := pgetF rule.params "max" .inf
        if flt ratio minimum || flt maximum ratio then
          pure (false, some
            { row_index := row.name
              column := none
              rule_name := rule.name
              violation_type := "ratio_bounds"
              severity := rule.severity
              observed_value := .fnum ratio
              expected := fRepr minimum ++ " <= " ++ num ++ "/" ++ den ++
                " <= " ++ fRepr maximum
              message := rule.message })
        else pure (true, none)
  | .if_then => do
      let feature := pgetStr rule.params "if_feature"
      let op := pgetStrD rule.params "op" ">="
      let value := pgetF rule.params "value" (.fin 0)
      let then_feature := pgetStr rule.params "then_feature"
      let constraint := (pget rule.params "constraint").getD (.s "non_negative")
      let fvv ← rowE row feature
      let fv := safeFloat fvv
      let condition := (op == ">=" && fge fv value) || (op == "<=" && fle fv value)
      if condition then do
        let tvv ← rowE row then_feature
        let target := safeFloat tvv
        let res : Bool × String :=
          match constraint with
          | .s c =>
              if c == "non_negative" && flt target (.fin 0) then
                (true, then_feature ++ " >= 0 when " ++ feature ++ " " ++ op ++
                  " " ++ fRepr value)
              else (false, "")
          | .cmap es =>
              match (es.find? (fun kv => kv.1 == "min")).map (fun kv => kv.2) with
              | some m =>
                  if flt target m then
                    (true, then_feature ++ " >= " ++ fRepr m ++ " when condition met")
                  else (false, "")
              | none =>
                  match (es.find? (fun kv => kv.1 == "max")).map (fun kv => kv.2) with
                  | some M =>
                      if flt M target then
                        (true, then_feature ++ " <= " ++ fRepr M ++ " when condition met")
                      else (false, "")
                  | none => (false, "")
          | _ => (false, "")
        if res.1 then
          pure (false, some
            { row_index := row.name
              column := some then_feature
              rule_name := rule.name
              violation_type := "if_then"
              severity := rule.severity
              observed_value := .vv tvv
              expected := res.2
              message := rule.message })
        else pure (true, none)
      else pure (true, none)
  | .nondecreasing_group =>
      nondecEvalE row rule (pgetCols rule.params "columns") .ninf

/-- validate.py `_infer_severity` and the severity-map lookup with an
explicit default. -/
def smGet (profile : ConstraintProfile) (k d : String) : String :=
  match profile.severity_map.find? (fun kv => kv.1 == k) with
  | some kv => kv.2
  | none => d

/-- `profile.numeric_policy.get("nan_policy", "reject")` as compared against
"reject" in validate.py (a present non-string value compares unequal). -/
def nanPolicyD (profile : ConstraintProfile) : String :=
  match pget profile.numeric_policy "nan_policy" with
  | some (.s s) => s
  | some _ => ""
  | none => "reject"

/-- `float(value)` under try/except for the validation engine (`none` means
the TypeError/ValueError path; strings are modelled as non-numeric). -/
def floatOfVal : Val → Option F
  | .fl x => some x
  | .vbool b => some (.fin (if b then 1 else 0))
  | _ => none

/-- Display form of a finite bound inside an expected string (approximate;
no theorem depends on it). -/
def qRepr (q : ℚ) : String := toString q.num ++ "/" ++ toString q.den

/-- validate.py `_validate_value`. The only raising path is Python `round`
applied to a non-finite float in the integer check (NaN is unreachable there
behind the null guard). -/
def validateValueE (idx : Nat) (colName : String) (value : Val)
    (col : FeatureColumn) (profile : ConstraintProfile) :
    Except PyErr (List ConstraintViolation) :=
  if pdIsNA value then
    if !col.nullable && nanPolicyD profile == "reject" then
      pure [{ row_index := idx, column := some colName,
              rule_name := "null_check", violation_type := "null",
              severity := smGet profile "null" "error",
              observed_value := .vv value, expected := "non-null",
              message := "Column " ++ colName ++ " does not allow nulls" }]
    else pure []
  else if col.dtype == "float" || col.dtype == "int" then
    match floatOfVal value with
    | none =>
        pure [{ row_index := idx, column := some colName,
                rule_name := "type_check", violation_type := "type",
                severity := smGet profile "type" "warn",
                observed_value := .vv value, expected := col.dtype,
                message := "Value for " ++ colName ++ " is not numeric" }]
    | some numeric => do
        let intV ←
          if col.dtype == "int" || col.integer_only then
            match numeric with
            | .fin q =>
                pure (if 1/1000000 < |q - (bankerRound q : ℚ)| then
                  [{ row_index := idx, column := some colName,
                     rule_name := "integer_check", violation_type := "integer",
                     severity := smGet profile "integer" "warn",
                     observed_value := .vv value, expected := "integer",
                     message := "Column " ++ colName ++ " requires integer values" }]
                  else [])
            | .nan => throw PyErr.valueError
            | _ => throw PyErr.overflowError
          else pure []
        let minV := match col.minimum with
          | some m =>
              if flt numeric (.fin m) then
                [{ row_index := idx, column := some colName,
                   rule_name := "min_check", violation_type := "range",
                   severity := smGet profile "range" "warn",
                   observed_value := .vv value, expected := ">=" ++ qRepr m,
                   message := colName ++ " below minimum" }]
              else []
          | none => []
        let maxV := match col.maximum with
          | some M =>
              if flt (.fin M) numeric then
                [{ row_index := idx, column := some colName,
                   rule_name := "max_check", violation_type := "range",
                   severity := smGet profile "range" "warn",
                   observed_value := .vv value, expected := "<=" ++ qRepr M,
                   message := colName ++ " above maximum" }]
              else []
          | none => []
        let nnV :=
          if col.non_negative && flt numeric (.fin 0) then
            [{ row_index := idx, column := some colName,
               rule_name := "non_negative", violation_type := "range",
               severity := smGet profile "range" "warn",
               observed_value := .vv value, expected := ">=0",
               message := colName ++ " must be non-negative" }]
          else []
        pure (intV ++ minV ++ maxV ++ nnV)
  else if col.dtype == "bool" then
    if !pyBoolLit value then
      pure [{ row_index := idx, column := some colName,
              rule_name := "bool_check", violation_type := "type",
              severity := smGet profile "type" "warn",
              observed_value := .vv value, expected := "0/1 or True/False",
              message := colName ++ " must be boolean" }]
    else pure []
  else if col.dtype == "categorical" then
    let cs := col.categories.getD []
    let catNonempty := match col.categories with
      | some l => !l.isEmpty
      | none => false
    if catNonempty && !valInCats value cs then
      pure [{ row_index := idx, column := some colName,
              rule_name := "category_check", violation_type := "category",
              severity := smGet profile "category" "warn",
              observed_value := .vv value,
              expected := String.intercalate "," cs,
              message := "Unexpected category for " ++ colName }]
    else if !isStr value then
      pure [{ row_index := idx, column := some colName,
              rule_name := "category_check", violation_type := "category",
              severity := smGet profile "category" "warn",
              observed_value := .vv value, expected := "string",
              message := "Categorical value for " ++ colName ++
                " must be a string" }]
    else pure []
  else pure []

/-- The `missing` violation emitted for a schema column absent from a row
(validate.py lines 175-186). -/
def missingViolation (idx : Nat) (c : String) : ConstraintViolation :=
  { row_index := idx, column := some c, rule_name := "missing_column",
    violation_type := "missing", severity := "error",
    observed_value := .vv .vnone, expected := "column present",
    message := "Column " ++ c ++ " missing in data" }

/-- The per-row column loop of `validate_dataframe`: a missing column yields
one `missing` violation and skips the per-cell checks for that column
(`continue`); other columns proceed. -/
def colChecksE (row : PRow) (profile : ConstraintProfile) :
    List FeatureColumn → Except PyErr (List ConstraintViolation)
  | [] => pure []
  | col :: rest =>
      match prGet row col.name with
      | none => do
          let r ← colChecksE row profile rest
          pure (missingViolation row.name col.name :: r)
      | some value => do
          let vs ← validateValueE row.name col.name value col profile
          let r ← colChecksE row profile rest
          pure (vs ++ r)

/-- The per-row relation loop of `validate_dataframe`: only violations of
failing rules are appended (`if not ok and violation`). -/
def relChecksE (row : PRow) : List RelationRule →
    Except PyErr (List ConstraintViolation)
  | [] => pure []
  | rule :: rest => do
      let res ← evaluateRelationE row rule
      let r ← relChecksE row rest
      pure ((if !res.1 then
              (match res.2 with | some v => [v] | none => []) else []) ++ r)

/-- One row of `validate_dataframe`: column checks then relation checks. -/
def validateRowE (row : PRow) (schema : List FeatureColumn)
    (profile : ConstraintProfile) : Except PyErr (List ConstraintViolation) := do
  let cv ← colChecksE row profile schema
  let rv ← relChecksE row profile.relation_rules
  pure (cv ++ rv)

/-- The row scan of `validate_dataframe`, appending row results in order. -/
def rowsChecksE (schema : List FeatureColumn) (profile : ConstraintProfile) :
    List PRow → Except PyErr (List ConstraintViolation)
  | [] => pure []
  | row :: rest => do
      let v ← validateRowE row schema profile
      let r ← rowsChecksE schema profile rest
      pure (v ++ r)

/-- validate.py `validate_dataframe`: optional head-prefix sampling (a limit
of 0 is falsy and ignored), then the row scan; returns the violations and the
number of rows considered. -/
def validateDataframe (df : List PRow) (schema : List FeatureColumn)
    (profile : ConstraintProfile) (sampleLimit : Option Nat) :
    Except PyErr (List ConstraintViolation × Nat) :=
  let df := match sampleLimit with
    | some n => if n ≠ 0 then df.take n else df
    | none => df
  do
    let vl ← rowsChecksE schema profile df
    pure (vl, df.length)

end FlowShield


namespace FlowShield

/-! ### Helper definitions for the verification, and concrete instances used
by counterexamples and witnesses. -/

deriving instance DecidableEq for Except

/-- The Boolean core of the NONDECREASING_GROUP evaluation, on the list of
floats already read from the row (matches `nondecEval` componentwise). -/
def nondecListOk (prev : F) : List F → Bool
  | [] => true
  | v :: vs => if flt v (fsub prev eps9) then false else nondecListOk v vs

/-- The running-maximum pass over finite values, written from the words of
the claim/spec ("each value strictly below the running maximum of prior
values becomes that running maximum, and values at or above it pass through
unchanged and update the running maximum"), used as the specification side of
the C4 refinement. -/
def prefixMaxGo (m : ℚ) : List ℚ → List ℚ
  | [] => []
  | v :: vs => if v < m then m :: prefixMaxGo m vs else v :: prefixMaxGo v vs

/-- Prefix-maximum sequence per the claim wording (the first value has no
prior values and passes through). -/
def prefixMaxSpec : List ℚ → List ℚ
  | [] => []
  | v :: vs => v :: prefixMaxGo v vs

/-- "non-negative or NaN" for floats (the column-pass invariant of C3). -/
def FNonnegOrNan (x : F) : Prop := x = .nan ∨ fle (.fin 0) x = true

/-- Decidable form of "the per-cell checks of this column raise no exception
on this row" (hypothesis of the amended C6). -/
def cellOkAt (row : PRow) (col : FeatureColumn) (profile : ConstraintProfile) : Bool :=
  match prGet row col.name with
  | none => true
  | some v => exIsOk (validateValueE row.name col.name v col profile)

/-- "is the `missing` violation of column `c`": the discriminator used to
state the amended C6. -/
def missFor (c : String) (v : ConstraintViolation) : Bool :=
  v.violation_type == "missing" && v.column == some c

/-- The `category` violation record of the categorical branch of
`_validate_value`, parametrised by its expectation and message strings. -/
def categoryViolation (idx : Nat) (cn : String) (value : Val)
    (profile : ConstraintProfile) (expected msg : String) :
    ConstraintViolation :=
  { row_index := idx, column := some cn, rule_name := "category_check",
    violation_type := "category", severity := smGet profile "category" "warn",
    observed_value := .vv value, expected := expected, message := msg }

/-- A safe-mode profile with clipping enabled and NaN rejection. -/
def exProfileSafe : ConstraintProfile :=
  { numeric_policy := [("nan_policy", .s "reject"), ("impute", .s "none"), ("clip", .b true)]
    int_policy := [("rounding", .s "nearest")] }

/-- An empty bounds dictionary. -/
def exEmptyBounds : Bounds := fun _ => {}

/-- C1 counterexample: an integer-only float column with fractional maximum
11/2 under a clipping profile with ceil rounding. -/
def exC1col : FeatureColumn :=
  { name := "x", dtype := "float", minimum := some 0, maximum := some (11/2),
    integer_only := true }

def exC1schema : List FeatureColumn := [exC1col]

def exC1profile : ConstraintProfile :=
  { numeric_policy := [("nan_policy", .s "reject"), ("impute", .s "none"), ("clip", .b true)]
    int_policy := [("rounding", .s "ceil")] }

def exC1df : List Row :=
  [⟨0, fun c => if c = "x" then .fl (.fin (73/10)) else .vnone⟩]

/-- C1 amended witness column: integer bounds 0..10. -/
def exC1wcol : FeatureColumn :=
  { name := "y", dtype := "float", minimum := some 0, maximum := some 10 }

/-- C2: a violated ORDER rule with operator `<=`. -/
def exC2rule : RelationRule :=
  { name := "ord", type := .order,
    params := [("left", .s "a"), ("right", .s "b"), ("operator", .s "<=")],
    message := "a should not exceed b", repair_strategy := "clip" }

def exC2row : Row :=
  ⟨0, fun c => if c = "a" then .fl (.fin 5) else if c = "b" then .fl (.fin 1) else .vnone⟩

/-- C3 counterexample: aggressive ORDER midpoint repair drives the
non-negative right column negative. -/
def exC3rule : RelationRule :=
  { name := "ord2", type := .order,
    params := [("left", .s "a"), ("right", .s "b"), ("operator", .s ">=")],
    message := "a at least b", repair_strategy := "clip" }

def exC3schema : List FeatureColumn :=
  [{ name := "a", dtype := "float" },
   { name := "b", dtype := "float", non_negative := true }]

def exC3profile : ConstraintProfile :=
  { numeric_policy := [("nan_policy", .s "reject"), ("impute", .s "none")]
    int_policy := [("rounding", .s "nearest")], relation_rules := [exC3rule],
    repair_mode := "aggressive" }

def exC3df : List Row :=
  [⟨0, fun c => if c = "a" then .fl (.fin (-10)) else if c = "b" then .fl (.fin 4) else .vnone⟩]

/-- C3 amended witness: plain non-negative column, no relation rules. -/
def exC3wschema : List FeatureColumn :=
  [{ name := "x", dtype := "float", non_negative := true }]

def exC3wdf : List Row :=
  [⟨0, fun c => if c = "x" then .fl (.fin (-5)) else .vnone⟩]

/-- C4 counterexample: a decrease smaller than the 1e-9 evaluation tolerance
is not repaired. -/
def exC4rule : RelationRule :=
  { name := "nd", type := .nondecreasing_group,
    params := [("columns", .strs ["c1", "c2"])], message := "nondecreasing",
    repair_strategy := "clip" }

def exC4row : Row :=
  ⟨0, fun c => if c = "c1" then .fl (.fin 5)
      else if c = "c2" then .fl (.fin (5 - 1/10000000000)) else .vnone⟩

/-- C4/C5 witness: the spec example [10, 5, 6, 12, 8]. -/
def exC4wrule : RelationRule :=
  { name := "nd5", type := .nondecreasing_group,
    params := [("columns", .strs ["c1", "c2", "c3", "c4", "c5"])],
    message := "nondecreasing", repair_strategy := "clip" }

def exC4wrow : Row :=
  ⟨0, fun c =>
      if c = "c1" then .fl (.fin 10)
      else if c = "c2" then .fl (.fin 5)
      else if c = "c3" then .fl (.fin 6)
      else if c = "c4" then .fl (.fin 12)
      else if c = "c5" then .fl (.fin 8) else .vnone⟩

/-- C6 counterexample: a RATIO_BOUNDS rule over present columns whose
denominator plus eps is exactly zero, with schema column "c" absent. -/
def exC6schema : List FeatureColumn :=
  [{ name := "c", dtype := "float" }, { name := "d", dtype := "float" },
   { name := "n", dtype := "float" }]

def exC6rule : RelationRule :=
  { name := "ratio", type := .ratio_bounds,
    params := [("numerator", .s "n"), ("denominator", .s "d"),
               ("min", .f (.fin 0)), ("max", .f (.fin 1))],
    message := "ratio in bounds" }

def exC6profile : ConstraintProfile :=
  { numeric_policy := [("nan_policy", .s "reject"), ("impute", .s "none")]
    int_policy := [("rounding", .s "nearest")], relation_rules := [exC6rule] }

def exC6df : List PRow :=
  [⟨0, [("d", .fl (.fin (-1/1000000))), ("n", .fl (.fin 1))]⟩]

/-- C6 amended witness: column "a" absent from the single row. -/
def exC6wschema : List FeatureColumn :=
  [{ name := "a", dtype := "float" }, { name := "b", dtype := "float" }]

def exC6wprofile : ConstraintProfile :=
  { numeric_policy := [("nan_policy", .s "reject"), ("impute", .s "none")]
    int_policy := [("rounding", .s "nearest")] }

def exC6wdf : List PRow := [⟨0, [("b", .fl (.fin 1))]⟩]

/-- C7 witness: a violated safe-mode ORDER `>=` rule. -/
def exC7rule : RelationRule :=
  { name := "ord7", type := .order,
    params := [("left", .s "a"), ("right", .s "b"), ("operator", .s ">=")],
    message := "a at least b", repair_strategy := "clip" }

def exC7row : Row :=
  ⟨0, fun c => if c = "a" then .fl (.fin 1) else if c = "b" then .fl (.fin 5) else .vnone⟩

/-- C8: a categorical column with a declared non-empty category set. -/
def exC8col : FeatureColumn :=
  { name := "c", dtype := "categorical", categories := some ["a", "b"] }

/-- C9 witness: an IF_THEN rule with a configured repair strategy. -/
def exC9rule : RelationRule :=
  { name := "ifthen", type := .if_then,
    params := [("if_feature", .s "a"), ("op", .s ">="), ("value", .f (.fin 0)),
               ("then_feature", .s "b")],
    message := "b nonneg when a nonneg", repair_strategy := "clip" }

def exC9row : Row :=
  ⟨0, fun c => if c = "a" then .fl (.fin 3) else if c = "b" then .fl (.fin (-2)) else .vnone⟩

/-- C10 witness store: one dataframe at reference 0. -/
def exC10store : List (List Row) :=
  [[⟨0, fun c => if c = "x" then .fl (.fin 7) else .vnone⟩]]

end FlowShield

namespace FlowShield

/-! ### Small evaluation lemmas for the float model -/

@[simp] theorem flt_fin_fin (a b : ℚ) : flt (.fin a) (.fin b) = decide (a < b) := rfl
@[simp] theorem flt_nan_left (x : F) : flt .nan x = false := by cases x <;> rfl
@[simp] theorem flt_nan_right (x : F) : flt x .nan = false := by cases x <;> rfl
@[simp] theorem flt_ninf_fin (q : ℚ) : flt .ninf (.fin q) = true := rfl
@[simp] theorem flt_fin_ninf (q : ℚ) : flt (.fin q) .ninf = false := rfl
@[simp] theorem flt_inf_left (x : F) : flt .inf x = false := by cases x <;> rfl
@[simp] theorem flt_fin_inf (q : ℚ) : flt (.fin q) .inf = true := rfl
@[simp] theorem flt_ninf_inf : flt .ninf .inf = true := rfl
@[simp] theorem flt_ninf_ninf : flt .ninf .ninf = false := rfl
@[simp] theorem fbeq_eq_decide (x y : F) : (x == y) = decide (x = y) := rfl

@[simp] theorem fle_fin_fin (a b : ℚ) : fle (.fin a) (.fin b) = decide (a ≤ b) := by
  have h1 : ¬(F.fin a = F.nan ∨ F.fin b = F.nan) := by simp
  rw [fle, if_neg h1]
  simp only [flt_fin_fin, fbeq_eq_decide, F.fin.injEq]
  rcases lt_trichotomy a b with h | h | h
  · simp [h, le_of_lt h]
  · simp [h]
  · simp [not_lt_of_gt h, ne_of_gt h, not_le_of_gt h]

@[simp] theorem fle_nan_left (x : F) : fle .nan x = false := by simp [fle]
@[simp] theorem fle_nan_right (x : F) : fle x .nan = false := by simp [fle]
@[simp] theorem fle_fin_inf (q : ℚ) : fle (.fin q) .inf = true := by simp [fle]
@[simp] theorem fle_inf_fin (q : ℚ) : fle .inf (.fin q) = false := by
  simp [fle, flt_inf_left]
@[simp] theorem fle_ninf_fin (q : ℚ) : fle .ninf (.fin q) = true := by simp [fle]
@[simp] theorem fle_fin_ninf (q : ℚ) : fle (.fin q) .ninf = false := by
  simp [fle, flt_fin_ninf]
@[simp] theorem fle_inf_inf : fle .inf .inf = true := by simp [fle]
@[simp] theorem fle_ninf_ninf : fle .ninf .ninf = true := by simp [fle]
@[simp] theorem fle_ninf_inf : fle .ninf .inf = true := by simp [fle]
@[simp] theorem fle_inf_ninf : fle .inf .ninf = false := by simp [fle, flt_inf_left]

@[simp] theorem fadd_fin_fin (a b : ℚ) : fadd (.fin a) (.fin b) = .fin (a + b) := rfl
@[simp] theorem fadd_nan_left (x : F) : fadd .nan x = .nan := by cases x <;> rfl
@[simp] theorem fadd_nan_right (x : F) : fadd x .nan = .nan := by cases x <;> rfl
@[simp] theorem fadd_ninf_fin (b : ℚ) : fadd .ninf (.fin b) = .ninf := rfl
@[simp] theorem fadd_fin_ninf (a : ℚ) : fadd (.fin a) .ninf = .ninf := rfl
@[simp] theorem fadd_inf_fin (b : ℚ) : fadd .inf (.fin b) = .inf := rfl
@[simp] theorem fadd_fin_inf (a : ℚ) : fadd (.fin a) .inf = .inf := rfl
@[simp] theorem fadd_inf_inf : fadd .inf .inf = .inf := rfl
@[simp] theorem fadd_ninf_ninf : fadd .ninf .ninf = .ninf := rfl
@[simp] theorem fadd_inf_ninf : fadd .inf .ninf = .nan := rfl
@[simp] theorem fadd_ninf_inf : fadd .ninf .inf = .nan := rfl

@[simp] theorem fneg_fin (a : ℚ) : fneg (.fin a) = .fin (-a) := rfl
@[simp] theorem fneg_nan : fneg .nan = .nan := rfl
@[simp] theorem fneg_inf : fneg .inf = .ninf := rfl
@[simp] theorem fneg_ninf : fneg .ninf = .inf := rfl

@[simp] theorem fsub_fin_fin (a b : ℚ) : fsub (.fin a) (.fin b) = .fin (a - b) := by
  simp [fsub, sub_eq_add_neg]
@[simp] theorem fsub_nan_left (x : F) : fsub .nan x = .nan := by simp [fsub]
@[simp] theorem fsub_nan_right (x : F) : fsub x .nan = .nan := by simp [fsub]
@[simp] theorem fsub_ninf_fin (b : ℚ) : fsub .ninf (.fin b) = .ninf := rfl
@[simp] theorem fsub_inf_fin (b : ℚ) : fsub .inf (.fin b) = .inf := rfl
@[simp] theorem fsub_fin_ninf (a : ℚ) : fsub (.fin a) .ninf = .inf := rfl
@[simp] theorem fsub_fin_inf (a : ℚ) : fsub (.fin a) .inf = .ninf := rfl
@[simp] theorem fsub_inf_inf : fsub .inf .inf = .nan := rfl
@[simp] theorem fsub_ninf_ninf : fsub .ninf .ninf = .nan := rfl

@[simp] theorem fmul_fin_fin (a b : ℚ) : fmul (.fin a) (.fin b) = .fin (a * b) := rfl
@[simp] theorem fdiv_fin_fin (a b : ℚ) :
    fdiv (.fin a) (.fin b) = if b = 0 then .nan else .fin (a / b) := rfl

@[simp] theorem fne_fin_fin (a b : ℚ) : fne (.fin a) (.fin b) = !decide (a = b) := by
  simp [fne, bne]
@[simp] theorem fne_nan_left (x : F) : fne .nan x = true := by simp [fne]
@[simp] theorem fne_nan_right (x : F) : fne x .nan = true := by simp [fne]

@[simp] theorem fFloor_fin (q : ℚ) : fFloor (.fin q) = .fin ⌊q⌋ := rfl
@[simp] theorem fCeil_fin (q : ℚ) : fCeil (.fin q) = .fin ⌈q⌉ := rfl
@[simp] theorem fRound_fin (q : ℚ) : fRound (.fin q) = .fin (bankerRound q) := rfl

@[simp] theorem safeFloat_fl (x : F) : safeFloat (.fl x) = x := by cases x <;> rfl
@[simp] theorem safeFloat_vnone : safeFloat .vnone = .nan := rfl
@[simp] theorem safeFloat_vstr (s : String) : safeFloat (.vstr s) = .nan := rfl
@[simp] theorem safeFloat_vbool (b : Bool) :
    safeFloat (.vbool b) = .fin (if b then 1 else 0) := rfl
@[simp] theorem coerceNumeric_fl (x : F) : coerceNumeric (.fl x) = x := rfl
@[simp] theorem coerceNumeric_vnone : coerceNumeric .vnone = .nan := rfl
@[simp] theorem coerceNumeric_vstr (s : String) : coerceNumeric (.vstr s) = .nan := rfl

theorem safeFloat_eq_coerce (v : Val) : safeFloat v = coerceNumeric v := by
  cases v with
  | fl x => cases x <;> rfl
  | vstr s => rfl
  | vbool b => rfl
  | vnone => rfl

theorem fne_false_eq {a b : F} (h : fne a b = false) : a = b := by
  by_cases ha : a = .nan
  · simp [fne, ha] at h
  · by_cases hb : b = .nan
    · simp [fne, hb] at h
    · simp [fne, ha, hb] at h
      exact h

@[simp] theorem updateRow_name (r : Row) (c : String) (v : Val) :
    (updateRow r c v).name = r.name := rfl

@[simp] theorem updateRow_same (r : Row) (c : String) (v : Val) :
    (updateRow r c v).vals c = v := by simp [updateRow]

theorem updateRow_other (r : Row) (c c' : String) (v : Val) (h : c' ≠ c) :
    (updateRow r c v).vals c' = r.vals c' := by simp [updateRow, h]

theorem ite_pair_fst_vals (P : Prop) [Decidable P] (row : Row) (L c : String)
    (x : Val) (a1 a2 : List RepairAction) (hc : c ≠ L) :
    ((if P then (updateRow row L x, a1) else (row, a2)) :
      Row × List RepairAction).1.vals c = row.vals c := by
  split
  · exact updateRow_other _ _ _ _ hc
  · rfl

end FlowShield

namespace FlowShield

/-- Claim C9: for every row, profile, and bounds mapping, and every IF_THEN
rule (regardless of its configured repair strategy), repair_relation performs
no repair: it returns the row with every column value unchanged, the rule
unchanged, and an empty action list, so IF_THEN violations persist through
repair. -/
theorem c9_if_then_no_repair (row : Row) (rule : RelationRule)
    (profile : ConstraintProfile) (bounds : Bounds)
    (htype : rule.type = .if_then) :
    repairRelation row rule profile bounds = (row, rule, ([] : List RepairAction)) := by
  by_cases h : ((evaluateRelation row rule).1 || (rule.repair_strategy == "none")) = true
  · simp [repairRelation, h]
  · simp [repairRelation, h, htype]

/-- Witness for C9 at a concrete violated IF_THEN rule with repair strategy
"clip". -/
theorem c9_if_then_no_repair_witness :
    exC9rule.type = .if_then ∧
    repairRelation exC9row exC9rule exProfileSafe exEmptyBounds =
      (exC9row, exC9rule, ([] : List RepairAction)) :=
  ⟨by decide, c9_if_then_no_repair exC9row exC9rule exProfileSafe exEmptyBounds (by decide)⟩

/-- Claim C7: for every row, profile with repair_mode "safe", bounds mapping,
and ORDER rule with operator ">=" (on two distinct columns) and a repair
strategy other than "none", repair_relation never changes the value of the
right column, and only the left column's value may differ. -/
theorem c7_safe_order_right_unchanged (row : Row) (rule : RelationRule)
    (profile : ConstraintProfile) (bounds : Bounds)
    (htype : rule.type = .order)
    (hop : pgetStrD rule.params "operator" ">=" = ">=")
    (hmode : profile.repair_mode = "safe")
    (hstrat : rule.repair_strategy ≠ "none")
    (hlr : pgetStr rule.params "left" ≠ pgetStr rule.params "right") :
    (repairRelation row rule profile bounds).1.vals (pgetStr rule.params "right") =
      row.vals (pgetStr rule.params "right") ∧
    ∀ c, c ≠ pgetStr rule.params "left" →
      (repairRelation row rule profile bounds).1.vals c = row.vals c := by
  have hframe : ∀ c, c ≠ pgetStr rule.params "left" →
      (repairRelation row rule profile bounds).1.vals c = row.vals c := by
    intro c hc
    by_cases h : ((evaluateRelation row rule).1 || (rule.repair_strategy == "none")) = true
    · simp [repairRelation, h]
    · have hop2 : (pgetStrD rule.params "operator" ">=" == ">=") = true := by simp [hop]
      have hmode2 : (profile.repair_mode == "safe") = true := by simp [hmode]
      simp only [repairRelation, h, Bool.false_eq_true, if_false, htype, hop2, if_true]
      simp only [orderRepairGE, hmode2, if_true]
      exact ite_pair_fst_vals _ _ _ _ _ _ _ hc
  exact ⟨hframe _ (Ne.symm hlr), hframe⟩

/-- Witness for C7 at a concrete violated safe ORDER rule (a=1 < b=5). -/
theorem c7_safe_order_right_unchanged_witness :
    (exC7rule.type = .order ∧
     pgetStrD exC7rule.params "operator" ">=" = ">=" ∧
     exProfileSafe.repair_mode = "safe" ∧
     exC7rule.repair_strategy ≠ "none" ∧
     pgetStr exC7rule.params "left" ≠ pgetStr exC7rule.params "right") ∧
    ((repairRelation exC7row exC7rule exProfileSafe exEmptyBounds).1.vals
        (pgetStr exC7rule.params "right") =
      exC7row.vals (pgetStr exC7rule.params "right") ∧
     ∀ c, c ≠ pgetStr exC7rule.params "left" →
      (repairRelation exC7row exC7rule exProfileSafe exEmptyBounds).1.vals c =
        exC7row.vals c) :=
  ⟨⟨by decide, by decide, by decide, by decide, by decide⟩,
   c7_safe_order_right_unchanged exC7row exC7rule exProfileSafe exEmptyBounds
     (by decide) (by decide) (by decide) (by decide) (by decide)⟩

/-- Counterexample for C2: on a row violating the `<=` ORDER rule, the rule
object returned by repair_relation (modelling the Python in-place mutation of
`rule.params`) no longer maps "left"/"right"/"operator" to their original
values: the swap persists after the call. -/
theorem c2_counterexample :
    (repairRelation exC2row exC2rule exProfileSafe exEmptyBounds).2.1.params ≠
      exC2rule.params ∧
    pget exC2rule.params "operator" = some (.s "<=") ∧
    pget (repairRelation exC2row exC2rule exProfileSafe exEmptyBounds).2.1.params
      "operator" = some (.s ">=") := by
  refine ⟨?_, by decide, ?_⟩ <;> decide

/-- Claim C2 (amended): for a row on which the `<=` ORDER rule is violated
and the repair strategy is not "none", repair_relation persistently rewrites
the rule's params to the swapped form (left maps to the old right, right to
the old left, operator to ">="); the rewrite is row-local with respect to the
data but is not confined to the call on the rule object. When the rule holds
or the strategy is "none", the params are unchanged. -/
theorem c2_amended_params_swapped (row : Row) (rule : RelationRule)
    (profile : ConstraintProfile) (bounds : Bounds)
    (htype : rule.type = .order)
    (hop : pgetStrD rule.params "operator" ">=" = "<=")
    (hstrat : rule.repair_strategy ≠ "none")
    (heval : (evaluateRelation row rule).1 = false) :
    (repairRelation row rule profile bounds).2.1.params =
      [("left", PVal.s (pgetStr rule.params "right")),
       ("right", PVal.s (pgetStr rule.params "left")),
       ("operator", PVal.s ">=")] := by
  have hgate : ((evaluateRelation row rule).1 || (rule.repair_strategy == "none")) = false := by
    simp [heval, hstrat]
  have h1 : (pgetStrD rule.params "operator" ">=" == ">=") = false := by simp [hop]
  have h2 : (pgetStrD rule.params "operator" ">=" == "<=") = true := by simp [hop]
  simp only [repairRelation, hgate, Bool.false_eq_true, if_false, htype, h1, h2, if_true]
  split <;> rfl

/-- Witness for the amended C2 at the concrete violated rule of the
counterexample. -/
theorem c2_amended_params_swapped_witness :
    (exC2rule.type = .order ∧
     pgetStrD exC2rule.params "operator" ">=" = "<=" ∧
     exC2rule.repair_strategy ≠ "none" ∧
     (evaluateRelation exC2row exC2rule).1 = false) ∧
    (repairRelation exC2row exC2rule exProfileSafe exEmptyBounds).2.1.params =
      [("left", PVal.s (pgetStr exC2rule.params "right")),
       ("right", PVal.s (pgetStr exC2rule.params "left")),
       ("operator", PVal.s ">=")] :=
  ⟨⟨by decide, by decide, by decide, by decide⟩,
   c2_amended_params_swapped exC2row exC2rule exProfileSafe exEmptyBounds
     (by decide) (by decide) (by decide) (by decide)⟩

/-- Claim C10: repair_dataframe never mutates its input. In the heap-level
rendering, the frame stored at the caller's reference holds the same value
after the call as before; repairs are applied to the freshly allocated deep
copy, whose reference is returned. -/
theorem c10_input_frame (store : List (List Row)) (dfRef : Nat)
    (schema : List FeatureColumn) (profile : ConstraintProfile)
    (ctx : RepairContext) (b : Bool) (h : dfRef < store.length) :
    (repairDataframeRef store dfRef schema profile ctx b).1[dfRef]? =
      store[dfRef]? := by
  simp only [repairDataframeRef]
  rw [List.getElem?_append]
  simp [h]

/-- Witness for C10 on a one-frame store. -/
theorem c10_input_frame_witness :
    0 < exC10store.length ∧
    (repairDataframeRef exC10store 0 [] {} {} true).1[0]? = exC10store[0]? :=
  ⟨by decide, c10_input_frame exC10store 0 [] {} {} true (by decide)⟩

end FlowShield

namespace FlowShield

/-! ### NONDECREASING_GROUP lemmas -/

theorem nondecEval_fst (row : Row) (rule : RelationRule) :
    ∀ (cols : List String) (prev : F),
    (nondecEval row rule cols prev).1 =
      nondecListOk prev (cols.map (fun c => safeFloat (row.vals c)))
  | [], _ => rfl
  | c :: cs, prev => by
      simp only [nondecEval, nondecListOk, List.map]
      split
      · rfl
      · exact nondecEval_fst row rule cs _

theorem flt_self_sub_eps (x : F) : flt x (fsub x eps9) = false := by
  cases x with
  | nan => simp
  | ninf => simp [eps9]
  | inf => simp [eps9]
  | fin q =>
      simp only [eps9, fsub_fin_fin, flt_fin_fin, decide_eq_false_iff_not]
      intro h
      linarith

theorem flt_mono_sub_eps {v cmax : F} (h : flt v cmax = false) :
    flt v (fsub cmax eps9) = false := by
  cases v <;> cases cmax <;>
    simp_all only [eps9, fsub_fin_fin, fsub_nan_left, fsub_nan_right, fsub_ninf_fin,
      fsub_inf_fin, flt_fin_fin, flt_nan_left, flt_nan_right, flt_ninf_fin,
      flt_fin_ninf, flt_inf_left, flt_fin_inf, flt_ninf_inf, flt_ninf_ninf,
      decide_eq_false_iff_not, decide_eq_true_eq] <;>
    try trivial
  · intro hc
    exact h (by linarith)

theorem nondecListOk_correct :
    ∀ (vs : List F) (cmax : F), nondecListOk cmax (nondecCorrect cmax vs) = true
  | [], _ => rfl
  | v :: vs, cmax => by
      simp only [nondecCorrect]
      by_cases h : flt v cmax = true
      · simp only [h, if_true, nondecListOk, flt_self_sub_eps cmax,
          Bool.false_eq_true, if_false]
        exact nondecListOk_correct vs cmax
      · rw [Bool.not_eq_true] at h
        simp only [h, Bool.false_eq_true, if_false, nondecListOk,
          flt_mono_sub_eps h]
        exact nondecListOk_correct vs v

theorem nondecCorrect_length :
    ∀ (cmax : F) (vs : List F), (nondecCorrect cmax vs).length = vs.length
  | _, [] => rfl
  | cmax, v :: vs => by
      simp only [nondecCorrect]
      split <;> simp [nondecCorrect_length _ vs]

theorem nondecWrite_name (rule : RelationRule) :
    ∀ (l : List (String × F × F)) (row : Row),
    (nondecWrite rule row l).1.name = row.name
  | [], _ => rfl
  | (c, o, n) :: rest, row => by
      simp only [nondecWrite]
      split
      · rw [nondecWrite_name rule rest]
        rfl
      · exact nondecWrite_name rule rest row

theorem nondecWrite_frame (rule : RelationRule) :
    ∀ (l : List (String × F × F)) (row : Row) (c : String),
    (∀ t ∈ l, t.1 ≠ c) → (nondecWrite rule row l).1.vals c = row.vals c
  | [], _, _, _ => rfl
  | (c', o, n) :: rest, row, c, h => by
      have hne : c' ≠ c := h (c', o, n) (by simp)
      have hrest : ∀ t ∈ rest, t.1 ≠ c := fun t ht => h t (by simp [ht])
      simp only [nondecWrite]
      split
      · rw [nondecWrite_frame rule rest _ c hrest]
        exact updateRow_other _ _ _ _ (Ne.symm hne)
      · exact nondecWrite_frame rule rest row c hrest

theorem nondecWrite_vals (rule : RelationRule) :
    ∀ (l : List (String × F × F)) (row : Row),
    (l.map (fun t => t.1)).Nodup →
    (∀ t ∈ l, safeFloat (row.vals t.1) = t.2.1) →
    (l.map (fun t => t.1)).map
        (fun c => safeFloat ((nondecWrite rule row l).1.vals c)) =
      l.map (fun t => t.2.2)
  | [], _, _, _ => rfl
  | (c, o, n) :: rest, row, hnd, hold => by
      have hnd' : (rest.map (fun t => t.1)).Nodup := (List.nodup_cons.mp hnd).2
      have hc : c ∉ rest.map (fun t => t.1) := (List.nodup_cons.mp hnd).1
      have hframe : ∀ t ∈ rest, t.1 ≠ c := by
        intro t ht hteq
        exact hc (hteq ▸ List.mem_map_of_mem (fun t => t.1) ht)
      have ho : safeFloat (row.vals c) = o := hold (c, o, n) (by simp)
      simp only [List.map, nondecWrite]
      by_cases hne : fne n o = true
      · simp only [hne, if_true]
        refine List.cons_eq_cons.mpr ⟨?_, ?_⟩
        · rw [nondecWrite_frame rule rest _ c hframe, updateRow_same]
          exact safeFloat_fl n
        · have hold' : ∀ t ∈ rest, safeFloat ((updateRow row c (.fl n)).vals t.1) = t.2.1 := by
            intro t ht
            rw [updateRow_other _ _ _ _ (hframe t ht)]
            exact hold t (by simp [ht])
          exact nondecWrite_vals rule rest (updateRow row c (.fl n)) hnd' hold'
      · rw [Bool.not_eq_true] at hne
        have heq : n = o := fne_false_eq hne
        simp only [hne, Bool.false_eq_true, if_false]
        refine List.cons_eq_cons.mpr ⟨?_, ?_⟩
        · rw [nondecWrite_frame rule rest _ c hframe, ho, heq]
        · exact nondecWrite_vals rule rest row hnd'
            (fun t ht => hold t (by simp [ht]))

theorem zip3_facts :
    ∀ (cols : List String) (f : String → F) (corr : List F),
    corr.length = cols.length →
    ((cols.zip ((cols.map f).zip corr)).map (fun t => t.1) = cols ∧
     (cols.zip ((cols.map f).zip corr)).map (fun t => t.2.2) = corr ∧
     ∀ t ∈ cols.zip ((cols.map f).zip corr), f t.1 = t.2.1)
  | [], _, corr, hlen => by
      cases corr with
      | nil => exact ⟨rfl, rfl, by simp⟩
      | cons _ _ => simp at hlen
  | c :: cols', f, corr, hlen => by
      cases corr with
      | nil => simp at hlen
      | cons n corr' =>
        have ih := zip3_facts cols' f corr' (by simpa using hlen)
        refine ⟨?_, ?_, ?_⟩
        · simp only [List.map, List.zip_cons_cons]
          exact List.cons_eq_cons.mpr ⟨rfl, ih.1⟩
        · simp only [List.map, List.zip_cons_cons]
          exact List.cons_eq_cons.mpr ⟨rfl, ih.2.1⟩
        · simp only [List.map, List.zip_cons_cons, List.mem_cons]
          rintro t (rfl | ht)
          · rfl
          · exact ih.2.2 t ht

end FlowShield

namespace FlowShield

theorem repairRelation_ok (row : Row) (rule : RelationRule)
    (profile : ConstraintProfile) (bounds : Bounds)
    (h : ((evaluateRelation row rule).1 || (rule.repair_strategy == "none")) = true) :
    repairRelation row rule profile bounds = (row, rule, ([] : List RepairAction)) := by
  simp only [repairRelation, h, if_true]

theorem repairRelation_nondec (row : Row) (rule : RelationRule)
    (profile : ConstraintProfile) (bounds : Bounds)
    (htype : rule.type = .nondecreasing_group)
    (hgate : ((evaluateRelation row rule).1 || (rule.repair_strategy == "none")) = false) :
    repairRelation row rule profile bounds =
      ((nondecWrite rule row ((pgetCols rule.params "columns").zip
          (((pgetCols rule.params "columns").map (fun c => safeFloat (row.vals c))).zip
           (nondecCorrect .ninf
             ((pgetCols rule.params "columns").map (fun c => safeFloat (row.vals c))))))).1,
       rule,
       (nondecWrite rule row ((pgetCols rule.params "columns").zip
          (((pgetCols rule.params "columns").map (fun c => safeFloat (row.vals c))).zip
           (nondecCorrect .ninf
             ((pgetCols rule.params "columns").map (fun c => safeFloat (row.vals c))))))).2) := by
  simp only [repairRelation, hgate, Bool.false_eq_true, if_false, htype]

theorem nondecCorrect_go_fin :
    ∀ (m : ℚ) (qs : List ℚ),
    nondecCorrect (.fin m) (qs.map F.fin) = (prefixMaxGo m qs).map F.fin
  | _, [] => rfl
  | m, v :: vs => by
      simp only [List.map, nondecCorrect, prefixMaxGo, flt_fin_fin]
      by_cases h : v < m
      · simp [h, nondecCorrect_go_fin m vs]
      · simp [h, nondecCorrect_go_fin v vs]

theorem nondecCorrect_fin_spec :
    ∀ (qs : List ℚ), nondecCorrect .ninf (qs.map F.fin) = (prefixMaxSpec qs).map F.fin
  | [] => rfl
  | v :: vs => by
      simp only [List.map, nondecCorrect, prefixMaxSpec, flt_fin_ninf,
        Bool.false_eq_true, if_false]
      exact List.cons_eq_cons.mpr ⟨rfl, nondecCorrect_go_fin v vs⟩

/-- Claim C5: repair of a NONDECREASING_GROUP rule (over distinct columns) is
idempotent: applying repair_relation again with the same rule to the repaired
row produces an empty action list, leaves the row unchanged, and leaves the
rule unchanged. -/
theorem c5_nondec_idempotent (row : Row) (rule : RelationRule)
    (profile : ConstraintProfile) (bounds : Bounds)
    (htype : rule.type = .nondecreasing_group)
    (hnd : (pgetCols rule.params "columns").Nodup) :
    repairRelation (repairRelation row rule profile bounds).1 rule profile bounds =
      ((repairRelation row rule profile bounds).1, rule, ([] : List RepairAction)) := by
  by_cases hgate : ((evaluateRelation row rule).1 || (rule.repair_strategy == "none")) = true
  · have h1 := repairRelation_ok row rule profile bounds hgate
    rw [h1]
    exact h1
  · rw [Bool.not_eq_true] at hgate
    have hr := repairRelation_nondec row rule profile bounds htype hgate
    have hlen : (nondecCorrect .ninf ((pgetCols rule.params "columns").map
        (fun c => safeFloat (row.vals c)))).length =
        (pgetCols rule.params "columns").length := by
      rw [nondecCorrect_length]
      exact List.length_map _ _
    have hz := zip3_facts (pgetCols rule.params "columns")
      (fun c => safeFloat (row.vals c))
      (nondecCorrect .ninf ((pgetCols rule.params "columns").map
        (fun c => safeFloat (row.vals c)))) hlen
    have hw := nondecWrite_vals rule
      ((pgetCols rule.params "columns").zip
        (((pgetCols rule.params "columns").map (fun c => safeFloat (row.vals c))).zip
         (nondecCorrect .ninf ((pgetCols rule.params "columns").map
           (fun c => safeFloat (row.vals c))))))
      row (by rw [hz.1]; exact hnd)
      (by intro t ht; exact hz.2.2 t ht)
    rw [hz.1, hz.2.1] at hw
    have hec : (evaluateRelation (repairRelation row rule profile bounds).1 rule).1 = true := by
      simp only [evaluateRelation, htype]
      rw [nondecEval_fst]
      have : (pgetCols rule.params "columns").map
          (fun c => safeFloat ((repairRelation row rule profile bounds).1.vals c)) =
          nondecCorrect .ninf ((pgetCols rule.params "columns").map
            (fun c => safeFloat (row.vals c))) := by
        rw [hr]
        exact hw
      rw [this]
      exact nondecListOk_correct _ _
    exact repairRelation_ok _ _ _ _ (by simp [hec])

/-- Witness for C5 on the group [10, 5, 6, 12, 8]. -/
theorem c5_nondec_idempotent_witness :
    (exC4wrule.type = .nondecreasing_group ∧
     (pgetCols exC4wrule.params "columns").Nodup) ∧
    repairRelation (repairRelation exC4wrow exC4wrule exProfileSafe exEmptyBounds).1
        exC4wrule exProfileSafe exEmptyBounds =
      ((repairRelation exC4wrow exC4wrule exProfileSafe exEmptyBounds).1,
       exC4wrule, ([] : List RepairAction)) :=
  ⟨⟨by decide, by decide⟩,
   c5_nondec_idempotent exC4wrow exC4wrule exProfileSafe exEmptyBounds
     (by decide) (by decide)⟩

/-- Claim C4 (amended): when a NONDECREASING_GROUP rule over distinct,
finite-valued columns is violated under the 1e-9-tolerance evaluation and its
strategy is not "none", repair_relation replaces the rule's column values by
their prefix-maximum sequence and touches no other column; rows already
passing the tolerance check are returned unchanged even when a value lies
strictly below the running maximum. -/
theorem c4_amended_prefix_max (row : Row) (rule : RelationRule)
    (profile : ConstraintProfile) (bounds : Bounds) (qs : List ℚ)
    (htype : rule.type = .nondecreasing_group)
    (hstrat : rule.repair_strategy ≠ "none")
    (hnd : (pgetCols rule.params "columns").Nodup)
    (hvals : (pgetCols rule.params "columns").map (fun c => safeFloat (row.vals c)) =
      qs.map F.fin)
    (heval : (evaluateRelation row rule).1 = false) :
    (pgetCols rule.params "columns").map
        (fun c => safeFloat ((repairRelation row rule profile bounds).1.vals c)) =
      (prefixMaxSpec qs).map F.fin ∧
    ∀ c, c ∉ pgetCols rule.params "columns" →
      (repairRelation row rule profile bounds).1.vals c = row.vals c := by
  have hgate : ((evaluateRelation row rule).1 || (rule.repair_strategy == "none")) = false := by
    simp [heval, hstrat]
  have hr := repairRelation_nondec row rule profile bounds htype hgate
  have hlen : (nondecCorrect .ninf ((pgetCols rule.params "columns").map
      (fun c => safeFloat (row.vals c)))).length =
      (pgetCols rule.params "columns").length := by
    rw [nondecCorrect_length]
    exact List.length_map _ _
  have hz := zip3_facts (pgetCols rule.params "columns")
    (fun c => safeFloat (row.vals c))
    (nondecCorrect .ninf ((pgetCols rule.params "columns").map
      (fun c => safeFloat (row.vals c)))) hlen
  constructor
  · have hw := nondecWrite_vals rule
      ((pgetCols rule.params "columns").zip
        (((pgetCols rule.params "columns").map (fun c => safeFloat (row.vals c))).zip
         (nondecCorrect .ninf ((pgetCols rule.params "columns").map
           (fun c => safeFloat (row.vals c))))))
      row (by rw [hz.1]; exact hnd)
      (by intro t ht; exact hz.2.2 t ht)
    rw [hz.1, hz.2.1] at hw
    rw [hr]
    rw [hw, hvals, nondecCorrect_fin_spec]
  · intro c hc
    rw [hr]
    apply nondecWrite_frame
    intro t ht hteq
    exact hc (hteq ▸ (List.of_mem_zip ht).1)

end FlowShield

namespace FlowShield

/-- Counterexample for C4: on row (c1, c2) = (5, 5 - 1e-10) the second value
lies strictly below the running maximum 5, yet repair_relation returns the
row unchanged with no actions (the 1e-9 tolerance of the evaluation gate
accepts the row), so the output is not the prefix-maximum sequence [5, 5]. -/
theorem c4_counterexample :
    repairRelation exC4row exC4rule exProfileSafe exEmptyBounds =
      (exC4row, exC4rule, ([] : List RepairAction)) ∧
    safeFloat (exC4row.vals "c2") = .fin (5 - 1/10000000000) ∧
    ((5:ℚ) - 1/10000000000 < 5) ∧
    prefixMaxSpec [5, 5 - 1/10000000000] = [5, 5] ∧
    ((5:ℚ) - 1/10000000000 ≠ 5) := by
  refine ⟨?_, ?_, by norm_num, ?_, by norm_num⟩
  · apply repairRelation_ok
    simp [evaluateRelation, nondecEval, exC4row, exC4rule, pgetCols, pget, eps9]
    norm_num
  · simp [exC4row]
  · simp [prefixMaxSpec, prefixMaxGo,
      show (5:ℚ) - 1/10000000000 < 5 by norm_num]

/-- Witness for the amended C4 on the spec example [10, 5, 6, 12, 8], whose
repaired sequence is [10, 10, 10, 12, 12]. -/
theorem c4_amended_prefix_max_witness :
    (exC4wrule.type = .nondecreasing_group ∧
     exC4wrule.repair_strategy ≠ "none" ∧
     (pgetCols exC4wrule.params "columns").Nodup ∧
     (pgetCols exC4wrule.params "columns").map (fun c => safeFloat (exC4wrow.vals c)) =
       ([10, 5, 6, 12, 8] : List ℚ).map F.fin ∧
     (evaluateRelation exC4wrow exC4wrule).1 = false) ∧
    ((pgetCols exC4wrule.params "columns").map
        (fun c => safeFloat
          ((repairRelation exC4wrow exC4wrule exProfileSafe exEmptyBounds).1.vals c)) =
      (prefixMaxSpec [10, 5, 6, 12, 8]).map F.fin ∧
     ∀ c, c ∉ pgetCols exC4wrule.params "columns" →
      (repairRelation exC4wrow exC4wrule exProfileSafe exEmptyBounds).1.vals c =
        exC4wrow.vals c) ∧
    prefixMaxSpec [10, 5, 6, 12, 8] = [10, 10, 10, 12, 12] :=
  ⟨⟨by decide, by decide, by decide, by decide,
    by
      simp [evaluateRelation, nondecEval, exC4wrow, exC4wrule, pgetCols, pget, eps9]
      norm_num⟩,
   c4_amended_prefix_max exC4wrow exC4wrule exProfileSafe exEmptyBounds
     [10, 5, 6, 12, 8] (by decide) (by decide) (by decide) (by decide)
     (by
       simp [evaluateRelation, nondecEval, exC4wrow, exC4wrule, pgetCols, pget, eps9]
       norm_num),
   by decide⟩

end FlowShield

namespace FlowShield

/-! ### Clipping-step lemmas (C1, C3) -/

theorem pymax_ne_nan {a b : F} (ha : a ≠ .nan) (hb : b ≠ .nan) :
    pymax a b ≠ .nan := by
  unfold pymax
  split <;> assumption

theorem nonnegStep_ne_nan {col : FeatureColumn} {n : F} (h : n ≠ .nan) :
    nonnegStep col n ≠ .nan := by
  unfold nonnegStep
  split
  · exact pymax_ne_nan (by simp) h
  · exact h

theorem minClipStep_ne_nan {col : FeatureColumn} {profile : ConstraintProfile}
    {n : F} (h : n ≠ .nan) : minClipStep col profile n ≠ .nan := by
  unfold minClipStep
  split
  · split
    · simp
    · exact h
  · exact h

theorem fle_fin_left_of_not_flt {a : F} {m : ℚ} (ha : a ≠ .nan)
    (h : flt a (.fin m) = false) : fle (.fin m) a = true := by
  cases a with
  | nan => exact absurd rfl ha
  | ninf => simp at h
  | inf => simp
  | fin q =>
      simp only [flt_fin_fin, decide_eq_false_iff_not, not_lt] at h
      simp [h]

theorem fle_fin_right_of_not_flt {a : F} {M : ℚ} (ha : a ≠ .nan)
    (h : flt (.fin M) a = false) : fle a (.fin M) = true := by
  cases a with
  | nan => exact absurd rfl ha
  | ninf => simp
  | inf => simp at h
  | fin q =>
      simp only [flt_fin_fin, decide_eq_false_iff_not, not_lt] at h
      simp [h]

/-- Claim C1 (amended): at the end of the clipping steps of the column-level
pass (non-negative clip, min clip, max clip), a numeric (non-NaN) value lies
within the column's declared minimum/maximum bounds whenever clipping is
enabled; later steps of the same pass (integer rounding toward a fractional
bound, aggressive ORDER midpoint repair, RATIO_BOUNDS numerator rewrite) can
move it back outside. -/
theorem c1_amended_clip_within_bounds (col : FeatureColumn)
    (profile : ConstraintProfile) (n : F)
    (hclip : clipEnabled profile = true) (hn : n ≠ .nan)
    (hmm : ∀ m M, col.minimum = some m → col.maximum = some M → m ≤ M) :
    (∀ m, col.minimum = some m → fle (.fin m) (clipNumeric col profile n) = true) ∧
    (∀ M, col.maximum = some M → fle (clipNumeric col profile n) (.fin M) = true) := by
  have hn2 : nonnegStep col n ≠ .nan := nonnegStep_ne_nan hn
  have hn3 : minClipStep col profile (nonnegStep col n) ≠ .nan := minClipStep_ne_nan hn2
  have hminlb : ∀ m, col.minimum = some m →
      fle (.fin m) (minClipStep col profile (nonnegStep col n)) = true := by
    intro m hm
    unfold minClipStep
    rw [hm]
    by_cases hcond : (flt (nonnegStep col n) (.fin m) && clipEnabled profile) = true
    · simp [hcond]
    · rw [Bool.not_eq_true] at hcond
      simp only [hcond, Bool.false_eq_true, if_false]
      rw [Bool.and_eq_false_iff] at hcond
      rcases hcond with h | h
      · exact fle_fin_left_of_not_flt hn2 h
      · rw [hclip] at h
        simp at h
  constructor
  · intro m hm
    unfold clipNumeric maxClipStep
    cases hM : col.maximum with
    | none => exact hminlb m hm
    | some M =>
        by_cases hcond : (flt (.fin M) (minClipStep col profile (nonnegStep col n)) &&
            clipEnabled profile) = true
        · simp only [hcond, if_true]
          simp [hmm m M hm hM]
        · rw [Bool.not_eq_true] at hcond
          simp only [hcond, Bool.false_eq_true, if_false]
          exact hminlb m hm
  · intro M hM
    unfold clipNumeric maxClipStep
    rw [hM]
    by_cases hcond : (flt (.fin M) (minClipStep col profile (nonnegStep col n)) &&
        clipEnabled profile) = true
    · simp [hcond]
    · rw [Bool.not_eq_true] at hcond
      simp only [hcond, Bool.false_eq_true, if_false]
      rw [Bool.and_eq_false_iff] at hcond
      rcases hcond with h | h
      · exact fle_fin_right_of_not_flt hn3 h
      · rw [hclip] at h
        simp at h

/-- Witness for the amended C1: value 15 in a column bounded by [0, 10] under
a clipping profile ends within bounds after the clip steps. -/
theorem c1_amended_clip_within_bounds_witness :
    (clipEnabled exProfileSafe = true ∧ (F.fin 15) ≠ F.nan ∧
     (∀ m M, exC1wcol.minimum = some m → exC1wcol.maximum = some M → m ≤ M)) ∧
    ((∀ m, exC1wcol.minimum = some m →
        fle (.fin m) (clipNumeric exC1wcol exProfileSafe (.fin 15)) = true) ∧
     (∀ M, exC1wcol.maximum = some M →
        fle (clipNumeric exC1wcol exProfileSafe (.fin 15)) (.fin M) = true)) :=
  ⟨⟨by decide, by decide,
    by
      intro m M hm hM
      injection hm with h1
      injection hM with h2
      subst h1
      subst h2
      decide⟩,
   c1_amended_clip_within_bounds exC1wcol exProfileSafe (.fin 15) (by decide) (by decide)
     (by
       intro m M hm hM
       injection hm with h1
       injection hM with h2
       subst h1
       subst h2
       decide)⟩

/-- Counterexample for C1: with clipping enabled, value 7.3 in an
integer-only column bounded by [0, 11/2] under ceil rounding is first clipped
to 11/2 and then rounded up to 6, which lies above the declared maximum in
the dataframe returned by repair_dataframe. -/
theorem c1_counterexample :
    safeFloat (((repairDataframe exC1df exC1schema exC1profile {} true).1.getD 0
        default).vals "x") = .fin 6 ∧
    exC1col.maximum = some (11/2) ∧
    clipEnabled exC1profile = true ∧
    ¬((6:ℚ) ≤ 11/2) := by
  have hceil : ((⌈(11:ℚ)/2⌉ : ℤ) : ℚ) = 6 := by
    have h : (⌈(11:ℚ)/2⌉ : ℤ) = 6 := by
      rw [Int.ceil_eq_iff] <;> norm_num
    rw [h]
    norm_num
  refine ⟨?_, rfl, by decide, by norm_num⟩
  simp [repairDataframe, repairRowCols, repairRowRules, repairCell, boundsFromSchema,
    exC1df, exC1schema, exC1col, exC1profile, pget, pgetStr, pgetStrD, clipEnabled,
    nanPolicyIsImpute, pvTruthy, nonnegStep, minClipStep, maxClipStep, roundValue,
    getImputeValue, updateRow, List.range_succ, hceil]
  norm_num [hceil]

end FlowShield

namespace FlowShield

theorem fnonneg_nonnegStep (col : FeatureColumn) (hnn : col.non_negative = true)
    (n : F) : FNonnegOrNan (nonnegStep col n) := by
  unfold FNonnegOrNan nonnegStep pymax
  cases n with
  | nan => simp
  | ninf => simp [hnn]
  | inf => simp
  | fin q =>
      by_cases h : q < 0
      · simp [hnn, h, not_lt_of_gt h]
      · simp [hnn, h, not_lt.mp h]

theorem fnonneg_minClipStep (col : FeatureColumn) (profile : ConstraintProfile)
    {n : F} (h : FNonnegOrNan n) : FNonnegOrNan (minClipStep col profile n) := by
  unfold minClipStep
  cases hm : col.minimum with
  | none => exact h
  | some m =>
      by_cases hc : (flt n (.fin m) && clipEnabled profile) = true
      · rcases h with hnan | hge
        · rw [hnan] at hc
          simp at hc
        · right
          simp only [hc, if_true]
          have h1 : flt n (.fin m) = true := by
            have := hc
            simp only [Bool.and_eq_true] at this
            exact this.1
          cases n with
          | nan => simp at hge
          | ninf => simp at hge
          | inf => simp at h1
          | fin q =>
              simp only [fle_fin_fin, decide_eq_true_eq] at hge
              simp only [flt_fin_fin, decide_eq_true_eq] at h1
              simp only [fle_fin_fin, decide_eq_true_eq]
              linarith
      · rw [Bool.not_eq_true] at hc
        simp only [hc, Bool.false_eq_true, if_false]
        exact h

theorem fnonneg_maxClipStep (col : FeatureColumn) (profile : ConstraintProfile)
    (hmax : ∀ M, col.maximum = some M → 0 ≤ M)
    {n : F} (h : FNonnegOrNan n) : FNonnegOrNan (maxClipStep col profile n) := by
  unfold maxClipStep
  cases hM : col.maximum with
  | none => exact h
  | some M =>
      by_cases hc : (flt (.fin M) n && clipEnabled profile) = true
      · right
        simp only [hc, if_true, fle_fin_fin, decide_eq_true_eq]
        exact hmax M hM
      · rw [Bool.not_eq_true] at hc
        simp only [hc, Bool.false_eq_true, if_false]
        exact h

theorem bankerRound_nonneg {q : ℚ} (h : 0 ≤ q) : 0 ≤ bankerRound q := by
  have hf : 0 ≤ ⌊q⌋ := Int.floor_nonneg.mpr h
  unfold bankerRound
  dsimp only
  split_ifs <;> omega

theorem fnonneg_roundValue {n : F} (h : FNonnegOrNan n) (s : String) :
    FNonnegOrNan (roundValue n s) := by
  unfold roundValue
  rcases h with hnan | hge
  · rw [hnan]
    split_ifs <;> left <;> rfl
  · cases n with
    | nan => simp at hge
    | ninf => simp at hge
    | inf => split_ifs <;> right <;> rfl
    | fin q =>
        simp only [fle_fin_fin, decide_eq_true_eq] at hge
        right
        split_ifs <;>
          simp only [fFloor_fin, fCeil_fin, fRound_fin, fle_fin_fin,
            decide_eq_true_eq]
        · exact_mod_cast Int.floor_nonneg.mpr hge
        · exact_mod_cast Int.ceil_nonneg hge
        · exact_mod_cast bankerRound_nonneg hge

theorem nonnegStep_id {col : FeatureColumn} {n : F}
    (h : (col.non_negative && flt n (.fin 0)) = false) : nonnegStep col n = n := by
  unfold nonnegStep
  rw [h]
  simp

theorem minClipStep_id {col : FeatureColumn} {profile : ConstraintProfile} {n : F}
    (h : (match col.minimum with
          | some m => flt n (.fin m) && clipEnabled profile
          | none => false) = false) : minClipStep col profile n = n := by
  cases hm : col.minimum with
  | none => simp [minClipStep, hm]
  | some m =>
      rw [hm] at h
      have h2 : (flt n (F.fin m) && clipEnabled profile) = false := h
      simp [minClipStep, hm, h2]

theorem maxClipStep_id {col : FeatureColumn} {profile : ConstraintProfile} {n : F}
    (h : (match col.maximum with
          | some M => flt (.fin M) n && clipEnabled profile
          | none => false) = false) : maxClipStep col profile n = n := by
  cases hM : col.maximum with
  | none => simp [maxClipStep, hM]
  | some M =>
      rw [hM] at h
      have h2 : (flt (F.fin M) n && clipEnabled profile) = false := h
      simp [maxClipStep, hM, h2]

end FlowShield

namespace FlowShield

theorem fnonneg_fin {x : F} (h : FNonnegOrNan x) {q : ℚ} (hx : x = .fin q) :
    0 ≤ q := by
  subst hx
  rcases h with h | h
  · exact absurd h (by simp)
  · simpa using h

theorem fnonneg_clip_chain (col : FeatureColumn) (profile : ConstraintProfile)
    (hnn : col.non_negative = true) (hmax : ∀ M, col.maximum = some M → 0 ≤ M)
    (n : F) :
    FNonnegOrNan (maxClipStep col profile (minClipStep col profile
      (nonnegStep col n))) :=
  fnonneg_maxClipStep col profile hmax
    (fnonneg_minClipStep col profile (fnonneg_nonnegStep col hnn n))

theorem repairCell_fnonneg (idx : Nat) (col : FeatureColumn) (value : Val)
    (profile : ConstraintProfile) (ctx : RepairContext)
    (hnn : col.non_negative = true)
    (hdt : col.dtype = "float" ∨ col.dtype = "int")
    (hmax : ∀ M, col.maximum = some M → 0 ≤ M)
    (q : ℚ) (hq : (repairCell idx col value profile ctx).1 = .fl (.fin q)) :
    0 ≤ q := by
  have hd : (col.dtype == "float" || col.dtype == "int") = true := by
    rcases hdt with h | h <;> simp [h]
  unfold repairCell at hq
  simp only [apply_ite (fun p : Val × List RepairAction => p.1), if_pos hd] at hq
  by_cases hg : (coerceNumeric value == F.nan && !nanPolicyIsImpute profile) = true
  · rw [if_pos hg] at hq
    rw [hq] at hg
    simp [coerceNumeric] at hg
  rw [if_neg hg] at hq
  by_cases hno : (coerceNumeric value == F.nan) = true
  · simp only [if_pos hno] at hq
    set n1 : F := getImputeValue ctx col.name
      (pgetStr profile.numeric_policy "impute") with hN
    by_cases hfor : (col.non_negative && flt n1 (F.fin 0)
        || (match col.minimum with
            | some m => flt (nonnegStep col n1) (F.fin m) && clipEnabled profile
            | none => false)
        || (match col.maximum with
            | some M => flt (F.fin M)
                  (minClipStep col profile (nonnegStep col n1)) &&
                clipEnabled profile
            | none => false)) = true
    · simp only [if_pos hfor] at hq
      by_cases hint : (col.integer_only || col.dtype == "int") = true
      · rw [if_pos hint] at hq
        by_cases hfne : fne (roundValue (maxClipStep col profile
            (minClipStep col profile (nonnegStep col n1)))
            (pgetStrD profile.int_policy "rounding" "nearest"))
            (maxClipStep col profile (minClipStep col profile
              (nonnegStep col n1))) = true
        · rw [if_pos hfne, Val.fl.injEq] at hq
          exact fnonneg_fin (fnonneg_roundValue
            (fnonneg_clip_chain col profile hnn hmax n1) _) hq
        · rw [if_neg hfne, Val.fl.injEq] at hq
          exact fnonneg_fin (fnonneg_clip_chain col profile hnn hmax n1) hq
      · rw [if_neg hint, Val.fl.injEq] at hq
        exact fnonneg_fin (fnonneg_clip_chain col profile hnn hmax n1) hq
    · have hf2 : (col.non_negative && flt n1 (F.fin 0)) = false := by
        rw [Bool.not_eq_true] at hfor
        simp only [Bool.or_eq_false_iff] at hfor
        first
        | exact hfor.1
        | exact hfor.1.1
      simp only [if_neg hfor] at hq
      by_cases hint : (col.integer_only || col.dtype == "int") = true
      · rw [if_pos hint] at hq
        by_cases hfne : fne (roundValue (maxClipStep col profile
            (minClipStep col profile (nonnegStep col n1)))
            (pgetStrD profile.int_policy "rounding" "nearest"))
            (maxClipStep col profile (minClipStep col profile
              (nonnegStep col n1))) = true
        · rw [if_pos hfne, Val.fl.injEq] at hq
          exact fnonneg_fin (fnonneg_roundValue
            (fnonneg_clip_chain col profile hnn hmax n1) _) hq
        · rw [if_neg hfne, Val.fl.injEq] at hq
          rw [hq] at hf2
          simp [hnn] at hf2
          exact hf2
      · rw [if_neg hint, Val.fl.injEq] at hq
        rw [hq] at hf2
        simp [hnn] at hf2
        exact hf2
  · simp only [if_neg hno] at hq
    set n1 : F := coerceNumeric value with hN
    by_cases hfor : (col.non_negative && flt n1 (F.fin 0)
        || (match col.minimum with
            | some m => flt (nonnegStep col n1) (F.fin m) && clipEnabled profile
            | none => false)
        || (match col.maximum with
            | some M => flt (F.fin M)
                  (minClipStep col profile (nonnegStep col n1)) &&
                clipEnabled profile
            | none => false)) = true
    · simp only [if_pos hfor] at hq
      by_cases hint : (col.integer_only || col.dtype == "int") = true
      · rw [if_pos hint] at hq
        by_cases hfne : fne (roundValue (maxClipStep col profile
            (minClipStep col profile (nonnegStep col n1)))
            (pgetStrD profile.int_policy "rounding" "nearest"))
            (maxClipStep col profile (minClipStep col profile
              (nonnegStep col n1))) = true
        · rw [if_pos hfne, Val.fl.injEq] at hq
          exact fnonneg_fin (fnonneg_roundValue
            (fnonneg_clip_chain col profile hnn hmax n1) _) hq
        · rw [if_neg hfne, Val.fl.injEq] at hq
          exact fnonneg_fin (fnonneg_clip_chain col profile hnn hmax n1) hq
      · rw [if_neg hint, Val.fl.injEq] at hq
        exact fnonneg_fin (fnonneg_clip_chain col profile hnn hmax n1) hq
    · have hf2 : (col.non_negative && flt n1 (F.fin 0)) = false := by
        rw [Bool.not_eq_true] at hfor
        simp only [Bool.or_eq_false_iff] at hfor
        first
        | exact hfor.1
        | exact hfor.1.1
      simp only [if_neg hfor] at hq
      have hval : ∀ r : ℚ, value = .fl (.fin r) → n1 = .fin r := by
        intro r hr
        rw [hN, hr]
        rfl
      by_cases hint : (col.integer_only || col.dtype == "int") = true
      · rw [if_pos hint] at hq
        by_cases hfne : fne (roundValue (maxClipStep col profile
            (minClipStep col profile (nonnegStep col n1)))
            (pgetStrD profile.int_policy "rounding" "nearest"))
            (maxClipStep col profile (minClipStep col profile
              (nonnegStep col n1))) = true
        · rw [if_pos hfne, Val.fl.injEq] at hq
          exact fnonneg_fin (fnonneg_roundValue
            (fnonneg_clip_chain col profile hnn hmax n1) _) hq
        · rw [if_neg hfne] at hq
          rw [hval q hq] at hf2
          simp [hnn] at hf2
          exact hf2
      · rw [if_neg hint] at hq
        rw [hval q hq] at hf2
        simp [hnn] at hf2
        exact hf2

end FlowShield

namespace FlowShield

theorem repairRowCols_vals_notin (profile : ConstraintProfile)
    (ctx : RepairContext) (cols : List FeatureColumn) (row : Row) (c : String)
    (hc : c ∉ cols.map FeatureColumn.name) :
    ((repairRowCols profile ctx cols row).1).vals c = row.vals c := by
  induction cols generalizing row with
  | nil => rfl
  | cons col rest ih =>
      simp only [List.map_cons, List.mem_cons, not_or] at hc
      simp only [repairRowCols]
      rw [ih _ hc.2, updateRow_other _ _ _ _ hc.1]

theorem repairRowCols_vals_mem (profile : ConstraintProfile)
    (ctx : RepairContext) (cols : List FeatureColumn) (row : Row)
    (hnd : (cols.map FeatureColumn.name).Nodup)
    (col : FeatureColumn) (hcol : col ∈ cols)
    (hnn : col.non_negative = true)
    (hdt : col.dtype = "float" ∨ col.dtype = "int")
    (hmax : ∀ M, col.maximum = some M → 0 ≤ M)
    (q : ℚ)
    (hq : ((repairRowCols profile ctx cols row).1).vals col.name =
      .fl (.fin q)) :
    0 ≤ q := by
  induction cols generalizing row with
  | nil => cases hcol
  | cons c0 rest ih =>
      simp only [List.map_cons, List.nodup_cons] at hnd
      rcases List.mem_cons.mp hcol with rfl | hmem
      · simp only [repairRowCols] at hq
        rw [repairRowCols_vals_notin _ _ _ _ _ hnd.1, updateRow_same] at hq
        exact repairCell_fnonneg row.name col (row.vals col.name) profile ctx
          hnn hdt hmax q hq
      · simp only [repairRowCols] at hq
        exact ih _ hnd.2 hmem hq

theorem repairFoldInv (schema : List FeatureColumn)
    (profile : ConstraintProfile) (ctx : RepairContext) (df : List Row) :
    ∀ k : Nat, k ≤ df.length →
    ∀ res, (List.range k).foldl (fun st i =>
        (st.1.set i (repairRowRules profile (boundsFromSchema schema) st.2.1
            (repairRowCols profile ctx schema (st.1.getD i default)).1).1,
         (repairRowRules profile (boundsFromSchema schema) st.2.1
            (repairRowCols profile ctx schema (st.1.getD i default)).1).2.1,
         st.2.2 ++ (repairRowCols profile ctx schema (st.1.getD i default)).2 ++
           (repairRowRules profile (boundsFromSchema schema) st.2.1
              (repairRowCols profile ctx schema (st.1.getD i default)).1).2.2))
        (df, ([] : List RelationRule), ([] : List RepairAction)) = res →
      res.2.1 = [] ∧ res.1.length = df.length ∧
      ∀ j : Nat, res.1[j]? = if j < k then
          (df[j]?).map (fun row => (repairRowCols profile ctx schema row).1)
        else df[j]? := by
  intro k
  induction k with
  | zero =>
      intro _ res hres
      subst hres
      simp
  | succ k ih =>
      intro hk res hres
      have hk' : k ≤ df.length := Nat.le_of_succ_le hk
      have hklt : k < df.length := Nat.lt_of_succ_le hk
      obtain ⟨h1, h2, h3⟩ := ih hk' _ rfl
      rw [List.range_succ, List.foldl_append, List.foldl_cons,
        List.foldl_nil] at hres
      rw [h1] at hres
      simp only [repairRowRules] at hres
      subst hres
      refine ⟨rfl, by rw [List.length_set]; exact h2, ?_⟩
      intro j
      by_cases hj : j = k
      · subst hj
        rw [List.getElem?_set_self', List.getD_eq_getElem?_getD, h3 j,
          if_neg (Nat.lt_irrefl j), List.getElem?_eq_getElem hklt,
          if_pos (Nat.lt_succ_self j)]
        rfl
      · rw [List.getElem?_set_ne (Ne.symm hj), h3 j]
        by_cases hjk : j < k
        · rw [if_pos hjk, if_pos (Nat.lt_succ_of_lt hjk)]
        · rw [if_neg hjk, if_neg (by omega)]

theorem repairDataframe_rules_nil_getD (df : List Row)
    (schema : List FeatureColumn) (profile : ConstraintProfile)
    (ctx : RepairContext) (keep : Bool)
    (hrules : profile.relation_rules = []) (i : Nat) (hi : i < df.length) :
    ((repairDataframe df schema profile ctx keep).1).getD i default =
      (repairRowCols profile ctx schema (df.getD i default)).1 := by
  unfold repairDataframe
  rw [hrules]
  obtain ⟨-, -, h3⟩ := repairFoldInv schema profile ctx df df.length le_rfl _ rfl
  simp only []
  rw [List.getD_eq_getElem?_getD, h3 i, if_pos hi,
    List.getElem?_eq_getElem hi, List.getD_eq_getElem?_getD,
    List.getElem?_eq_getElem hi]
  rfl

end FlowShield

namespace FlowShield

/-- C3 (amended): when the profile carries no relation rules, every cell of a
non-negative-flagged numeric column (whose declared maximum, if any, is
itself non-negative) in the dataframe returned by `repair_dataframe` that
holds a finite float is at least 0. -/
theorem c3_amended_nonneg (df : List Row) (schema : List FeatureColumn)
    (profile : ConstraintProfile) (ctx : RepairContext) (keep : Bool)
    (hrules : profile.relation_rules = [])
    (hnd : (schema.map FeatureColumn.name).Nodup)
    (col : FeatureColumn) (hcol : col ∈ schema)
    (hnn : col.non_negative = true)
    (hdt : col.dtype = "float" ∨ col.dtype = "int")
    (hmax : ∀ M, col.maximum = some M → 0 ≤ M)
    (i : Nat) (hi : i < df.length) (q : ℚ)
    (hq : (((repairDataframe df schema profile ctx keep).1).getD i
      default).vals col.name = .fl (.fin q)) :
    0 ≤ q := by
  rw [repairDataframe_rules_nil_getD df schema profile ctx keep hrules i hi]
    at hq
  exact repairRowCols_vals_mem profile ctx schema _ hnd col hcol hnn hdt hmax
    q hq

/-- Witness for the amended C3 theorem: the -5 in the non-negative float
column "x" is repaired to 0, which the theorem certifies as nonnegative. -/
theorem c3_amended_nonneg_witness :
    exProfileSafe.relation_rules = [] ∧ 0 < exC3wdf.length ∧
    (((repairDataframe exC3wdf exC3wschema exProfileSafe {} true).1).getD 0
      default).vals "x" = .fl (.fin 0) ∧ (0:ℚ) ≤ 0 :=
  ⟨rfl, by decide, by decide,
   c3_amended_nonneg exC3wdf exC3wschema exProfileSafe {} true rfl (by decide)
     { name := "x", dtype := "float", non_negative := true }
     (List.mem_singleton.mpr rfl) rfl (Or.inl rfl)
     (fun M hM => by cases hM) 0 (by decide) 0 (by decide)⟩

end FlowShield

namespace FlowShield

/-- Counterexample for C3: under the aggressive profile, the ORDER rule
"a >= b" on the row (a, b) = (-10, 4) is repaired by moving both columns to
the midpoint -3, so the non-negative-flagged column "b" leaves
repair_dataframe holding -3 < 0. -/
theorem c3_counterexample :
    (((repairDataframe exC3df exC3schema exC3profile {} true).1).getD 0
      default).vals "b" = .fl (.fin (-3)) ∧
    ({ name := "b", dtype := "float", non_negative := true } :
      FeatureColumn) ∈ exC3schema ∧
    ¬((0:ℚ) ≤ -3) := by
  refine ⟨?_, List.mem_cons_of_mem _ (List.mem_singleton.mpr rfl), by norm_num⟩
  simp [repairDataframe, repairRowCols, repairRowRules, repairCell,
    repairRelation, evaluateRelation, orderRepairGE, vneF, boundsFromSchema,
    bMinF, bMaxF, npIsFinite, safeFloat, coerceNumeric, pymax, pymin,
    pdIsNA, fge, fle, fne,
    exC3df, exC3schema, exC3profile, exC3rule, pget, pgetStr, pgetStrD,
    pgetF, clipEnabled, nanPolicyIsImpute, pvTruthy, nonnegStep, minClipStep,
    maxClipStep, roundValue, getImputeValue, updateRow, List.range_succ,
    show ((-10:ℚ) + 4) / 2 = -3 by norm_num,
    show ¬((4:ℚ) < -10 ∨ (4:ℚ) = -10) by norm_num,
    show ¬((-3:ℚ) = 4) by norm_num, show ¬((-3:ℚ) = -10) by norm_num]

end FlowShield

namespace FlowShield

@[simp] theorem except_bind_ok {α β : Type} (a : α) (f : α → Except PyErr β) :
    (Except.ok a >>= f : Except PyErr β) = f a := rfl

@[simp] theorem except_bind_err {α β : Type} (e : PyErr)
    (f : α → Except PyErr β) :
    (Except.error e >>= f : Except PyErr β) = Except.error e := rfl

@[simp] theorem except_pure_eq {α : Type} (a : α) :
    (pure a : Except PyErr α) = Except.ok a := rfl

@[simp] theorem except_throw_eq {α : Type} (e : PyErr) :
    (throw e : Except PyErr α) = Except.error e := rfl

theorem exIsOk_eq_true_iff {α : Type} {x : Except PyErr α} :
    exIsOk x = true ↔ ∃ a, x = .ok a := by
  cases x <;> simp [exIsOk]

theorem validateValueE_not_missing (idx : Nat) (cn : String) (value : Val)
    (col : FeatureColumn) (profile : ConstraintProfile)
    (vs : List ConstraintViolation)
    (h : validateValueE idx cn value col profile = .ok vs) :
    ∀ x ∈ vs, x.violation_type ≠ "missing" := by
  unfold validateValueE at h
  repeat'
    first
    | split at h
    | simp only [except_bind_ok, except_bind_err, except_pure_eq,
        except_throw_eq] at h
  all_goals
    cases h <;>
      (intro x hx
       simp only [List.mem_append, List.mem_singleton, List.mem_cons,
         List.not_mem_nil, or_false, false_or] at hx
       repeat' rcases hx with hx | rfl
       all_goals first | (subst hx; simp) | simp | cases hx)

end FlowShield

namespace FlowShield

theorem nondecEvalE_not_missing (row : PRow) (rule : RelationRule) :
    ∀ (cols : List String) (prev : F) (b : Bool) (v : ConstraintViolation),
    nondecEvalE row rule cols prev = .ok (b, some v) →
    v.violation_type ≠ "missing" := by
  intro cols
  induction cols with
  | nil =>
      intro prev b v h
      simp [nondecEvalE] at h
  | cons c cs ih =>
      intro prev b v h
      unfold nondecEvalE at h
      rcases hr : rowE row c with e | val2
      · rw [hr] at h
        simp at h
      · rw [hr] at h
        simp only [except_bind_ok] at h
        split at h
        · simp only [except_pure_eq, Except.ok.injEq, Prod.mk.injEq,
            Option.some.injEq] at h
          rw [← h.2]
          simp
        · exact ih _ _ _ h

theorem evaluateRelationE_not_missing (row : PRow) (rule : RelationRule)
    (b : Bool) (ov : Option ConstraintViolation)
    (h : evaluateRelationE row rule = .ok (b, ov)) :
    ∀ v, ov = some v → v.violation_type ≠ "missing" := by
  intro v hv
  subst hv
  unfold evaluateRelationE at h
  rcases hrt : rule.type with _ | _ | _ | _ | _ <;> rw [hrt] at h <;>
    simp only [] at h
  case sum_bounds =>
      rcases hm : (pgetCols rule.params "columns").mapM (fun c => rowE row c)
        with e | vs
      · rw [hm] at h
        simp at h
      · rw [hm] at h
        simp only [except_bind_ok] at h
        split at h
        · simp only [except_pure_eq, Except.ok.injEq, Prod.mk.injEq,
            Option.some.injEq] at h
          rw [← h.2]
          simp
        · simp at h
  case order =>
      rcases hl : rowE row (pgetStr rule.params "left") with e | lvv
      · rw [hl] at h
        simp at h
      · rw [hl] at h
        simp only [except_bind_ok] at h
        rcases hr : rowE row (pgetStr rule.params "right") with e | rvv
        · rw [hr] at h
          simp at h
        · rw [hr] at h
          simp only [except_bind_ok] at h
          repeat' split at h
          all_goals
            first
            | (simp at h
               done)
            | (simp only [except_pure_eq, Except.ok.injEq, Prod.mk.injEq,
                Option.some.injEq] at h
               rw [← h.2]
               simp)
  case ratio_bounds =>
      rcases hd : rowE row (pgetStr rule.params "denominator") with e | dvv
      · rw [hd] at h
        simp at h
      · rw [hd] at h
        simp only [except_bind_ok] at h
        rcases hn : rowE row (pgetStr rule.params "numerator") with e | nvv
        · rw [hn] at h
          simp at h
        · rw [hn] at h
          simp only [except_bind_ok] at h
          repeat' split at h
          all_goals
            first
            | (simp at h
               done)
            | (simp only [except_pure_eq, Except.ok.injEq, Prod.mk.injEq,
                Option.some.injEq] at h
               rw [← h.2]
               simp)
  case if_then =>
      rcases hf : rowE row (pgetStr rule.params "if_feature") with e | fvv
      · rw [hf] at h
        simp at h
      · rw [hf] at h
        simp only [except_bind_ok] at h
        split at h
        · rcases ht : rowE row (pgetStr rule.params "then_feature") with e | tvv
          · rw [ht] at h
            simp at h
          · rw [ht] at h
            simp only [except_bind_ok] at h
            repeat' split at h
            all_goals
              first
              | (simp at h
                 done)
              | (simp only [except_pure_eq, Except.ok.injEq, Prod.mk.injEq,
                  Option.some.injEq] at h
                 rw [← h.2]
                 simp)
        · simp at h
  case nondecreasing_group =>
      exact nondecEvalE_not_missing row rule _ _ _ _ h

theorem relChecksE_not_missing (row : PRow) :
    ∀ (rules : List RelationRule) (rvs : List ConstraintViolation),
    relChecksE row rules = .ok rvs →
    ∀ x ∈ rvs, x.violation_type ≠ "missing" := by
  intro rules
  induction rules with
  | nil =>
      intro rvs h x hx
      simp [relChecksE] at h
      subst h
      cases hx
  | cons rule rest ih =>
      intro rvs h x hx
      unfold relChecksE at h
      rcases he : evaluateRelationE row rule with e | res
      · rw [he] at h
        simp at h
      · rw [he] at h
        simp only [except_bind_ok] at h
        rcases hr : relChecksE row rest with e2 | r
        · rw [hr] at h
          simp at h
        · rw [hr] at h
          simp only [except_bind_ok, except_pure_eq, Except.ok.injEq] at h
          subst h
          rcases List.mem_append.mp hx with hx1 | hx2
          · split at hx1
            · split at hx1
              · next v2 heq =>
                  rcases List.mem_singleton.mp hx1 with rfl
                  exact evaluateRelationE_not_missing row rule res.1 res.2 he
                    x heq
              · cases hx1
            · cases hx1
          · exact ih r hr x hx2

theorem relChecksE_ok (row : PRow) :
    ∀ rules : List RelationRule,
    (∀ rule ∈ rules, exIsOk (evaluateRelationE row rule) = true) →
    ∃ rvs, relChecksE row rules = .ok rvs := by
  intro rules
  induction rules with
  | nil => exact fun _ => ⟨[], rfl⟩
  | cons rule rest ih =>
      intro hok
      obtain ⟨res, hres⟩ := exIsOk_eq_true_iff.mp (hok rule (by simp))
      obtain ⟨r, hr⟩ := ih (fun ru hru => hok ru (List.mem_cons_of_mem _ hru))
      refine ⟨(if !res.1 then
          (match res.2 with | some v => [v] | none => []) else []) ++ r, ?_⟩
      unfold relChecksE
      rw [hres, except_bind_ok, hr, except_bind_ok, except_pure_eq]

end FlowShield

namespace FlowShield

theorem colChecksE_missing_split (row : PRow) (profile : ConstraintProfile)
    (c : String) (habs : prGet row c = none) :
    ∀ schema : List FeatureColumn,
    (∀ col ∈ schema, cellOkAt row col profile = true) →
    ∃ cvs, colChecksE row profile schema = .ok cvs ∧
      cvs.filter (missFor c) =
        List.replicate ((schema.map FeatureColumn.name).count c)
          (missingViolation row.name c) ∧
      ∃ cvs2, colChecksE row profile
          (schema.filter (fun col => col.name != c)) = .ok cvs2 ∧
        cvs.filter (fun v => !(missFor c v)) = cvs2 := by
  intro schema
  induction schema with
  | nil => exact fun _ => ⟨[], rfl, by simp, [], rfl, rfl⟩
  | cons col rest ih =>
      intro hcells
      obtain ⟨r, hr, hfil, r2, hr2, hfil2⟩ :=
        ih (fun col2 h2 => hcells col2 (List.mem_cons_of_mem _ h2))
      rcases hpg : prGet row col.name with _ | v
      · by_cases hname : col.name = c
        · refine ⟨missingViolation row.name col.name :: r, ?_, ?_, r2, ?_, ?_⟩
          · simp only [colChecksE]
            rw [hpg, hr]
            rfl
          · have hmf : missFor c (missingViolation row.name col.name) = true := by
              simp [missFor, missingViolation, hname]
            rw [List.filter_cons, if_pos hmf, hname]
            simp [List.count_cons, List.replicate_succ, hfil, hname]
          · rw [List.filter_cons, if_neg (by simp [hname])]
            exact hr2
          · have hmf : missFor c (missingViolation row.name col.name) = true := by
              simp [missFor, missingViolation, hname]
            rw [List.filter_cons, if_neg (by simp [hmf])]
            exact hfil2
        · have hmf : missFor c (missingViolation row.name col.name) = false := by
            simp [missFor, missingViolation, hname]
          refine ⟨missingViolation row.name col.name :: r, ?_, ?_,
                  missingViolation row.name col.name :: r2, ?_, ?_⟩
          · simp only [colChecksE]
            rw [hpg, hr]
            rfl
          · rw [List.filter_cons, if_neg (by simp [hmf])]
            simp [List.count_cons, hname, hfil]
          · rw [List.filter_cons, if_pos (by simp [hname])]
            simp only [colChecksE]
            rw [hpg, hr2]
            rfl
          · rw [List.filter_cons, if_pos (by simp [hmf])]
            rw [hfil2]
      · have hcol : cellOkAt row col profile = true :=
          hcells col (List.mem_cons_self _ _)
        unfold cellOkAt at hcol
        rw [hpg] at hcol
        obtain ⟨vs, hvs⟩ := exIsOk_eq_true_iff.mp hcol
        have hnm := validateValueE_not_missing _ _ _ _ _ _ hvs
        have hne : col.name ≠ c := by
          intro hh
          rw [hh, habs] at hpg
          cases hpg
        have hvs_none : ∀ x ∈ vs, missFor c x = false := by
          intro x hx
          have h1 : (x.violation_type == "missing") = false :=
            beq_eq_false_iff_ne.mpr (hnm x hx)
          simp [missFor, h1]
        refine ⟨vs ++ r, ?_, ?_, vs ++ r2, ?_, ?_⟩
        · simp only [colChecksE, hpg]
          rw [hvs, hr]
          rfl
        · rw [List.filter_append]
          have hnil : vs.filter (missFor c) = [] := by
            rw [List.filter_eq_nil]
            intro a ha
            simp [hvs_none a ha]
          rw [hnil]
          simp [List.count_cons, hne, hfil]
        · rw [List.filter_cons, if_pos (by simp [hne])]
          simp only [colChecksE, hpg]
          rw [hvs, hr2]
          rfl
        · rw [List.filter_append]
          have hself : vs.filter (fun v => !(missFor c v)) = vs := by
            rw [List.filter_eq_self]
            intro a ha
            simp [hvs_none a ha]
          rw [hself, hfil2]

end FlowShield

namespace FlowShield

theorem validateRowE_missing_split (row : PRow) (schema : List FeatureColumn)
    (profile : ConstraintProfile) (c : String)
    (habs : prGet row c = none)
    (hcells : ∀ col ∈ schema, cellOkAt row col profile = true)
    (hrules : ∀ rule ∈ profile.relation_rules,
      exIsOk (evaluateRelationE row rule) = true) :
    ∃ vl, validateRowE row schema profile = .ok vl ∧
      vl.filter (missFor c) =
        List.replicate ((schema.map FeatureColumn.name).count c)
          (missingViolation row.name c) ∧
      ∃ vl2, validateRowE row (schema.filter (fun col => col.name != c))
          profile = .ok vl2 ∧
        vl.filter (fun v => !(missFor c v)) = vl2 := by
  obtain ⟨cvs, hc1, hc2, cvs2, hc3, hc4⟩ :=
    colChecksE_missing_split row profile c habs schema hcells
  obtain ⟨rvs, hrv⟩ := relChecksE_ok row profile.relation_rules hrules
  have hrnm := relChecksE_not_missing row profile.relation_rules rvs hrv
  have hrfalse : ∀ x ∈ rvs, missFor c x = false := by
    intro x hx
    have h1 : (x.violation_type == "missing") = false :=
      beq_eq_false_iff_ne.mpr (hrnm x hx)
    simp [missFor, h1]
  refine ⟨cvs ++ rvs, ?_, ?_, cvs2 ++ rvs, ?_, ?_⟩
  · unfold validateRowE
    rw [hc1, except_bind_ok, hrv, except_bind_ok, except_pure_eq]
  · rw [List.filter_append]
    have hnil : rvs.filter (missFor c) = [] := by
      rw [List.filter_eq_nil_iff]
      intro a ha
      simp [hrfalse a ha]
    rw [hnil, hc2, List.append_nil]
  · unfold validateRowE
    rw [hc3, except_bind_ok, hrv, except_bind_ok, except_pure_eq]
  · rw [List.filter_append]
    have hself : rvs.filter (fun v => !(missFor c v)) = rvs := by
      rw [List.filter_eq_self]
      intro a ha
      simp [hrfalse a ha]
    rw [hself, hc4]

theorem rowsChecksE_missing_split (schema : List FeatureColumn)
    (profile : ConstraintProfile) (c : String)
    (hcount : (schema.map FeatureColumn.name).count c = 1) :
    ∀ df : List PRow,
    (∀ row ∈ df, prGet row c = none) →
    (∀ row ∈ df, ∀ col ∈ schema, cellOkAt row col profile = true) →
    (∀ row ∈ df, ∀ rule ∈ profile.relation_rules,
      exIsOk (evaluateRelationE row rule) = true) →
    ∃ vl, rowsChecksE schema profile df = .ok vl ∧
      vl.filter (missFor c) =
        df.map (fun row => missingViolation row.name c) ∧
      ∃ vl2, rowsChecksE (schema.filter (fun col => col.name != c)) profile
          df = .ok vl2 ∧
        vl.filter (fun v => !(missFor c v)) = vl2 := by
  intro df
  induction df with
  | nil => exact fun _ _ _ => ⟨[], rfl, by simp, [], rfl, rfl⟩
  | cons row rest ih =>
      intro habs hcells hrules
      obtain ⟨vl, h1, h2, vl2, h3, h4⟩ :=
        validateRowE_missing_split row schema profile c
          (habs row (List.mem_cons_self _ _))
          (hcells row (List.mem_cons_self _ _))
          (hrules row (List.mem_cons_self _ _))
      obtain ⟨rl, hr1, hr2, rl2, hr3, hr4⟩ :=
        ih (fun r hr => habs r (List.mem_cons_of_mem _ hr))
          (fun r hr => hcells r (List.mem_cons_of_mem _ hr))
          (fun r hr => hrules r (List.mem_cons_of_mem _ hr))
      refine ⟨vl ++ rl, ?_, ?_, vl2 ++ rl2, ?_, ?_⟩
      · unfold rowsChecksE
        rw [h1, except_bind_ok, hr1, except_bind_ok, except_pure_eq]
      · rw [List.filter_append, h2, hr2, hcount]
        rfl
      · unfold rowsChecksE
        rw [h3, except_bind_ok, hr3, except_bind_ok, except_pure_eq]
      · rw [List.filter_append, h4, hr4]

/-- C6 (amended): for a schema-declared column `c` (declared once) absent
from every row, provided every present cell's checks raise no exception and
every relation-rule evaluation raises no exception, `validate_dataframe`
completes, reports exactly one `missing` violation per row for `c`, and the
rest of its report is exactly the report of the schema without `c` (all other
columns still checked, all relation rules still evaluated). -/
theorem c6_amended (df : List PRow) (schema : List FeatureColumn)
    (profile : ConstraintProfile) (c : String)
    (hcount : (schema.map FeatureColumn.name).count c = 1)
    (habs : ∀ row ∈ df, prGet row c = none)
    (hcells : ∀ row ∈ df, ∀ col ∈ schema, cellOkAt row col profile = true)
    (hrules : ∀ row ∈ df, ∀ rule ∈ profile.relation_rules,
      exIsOk (evaluateRelationE row rule) = true) :
    ∃ vl, validateDataframe df schema profile none = .ok (vl, df.length) ∧
      vl.filter (missFor c) =
        df.map (fun row => missingViolation row.name c) ∧
      ∃ vl2, validateDataframe df (schema.filter (fun col => col.name != c))
          profile none = .ok (vl2, df.length) ∧
        vl.filter (fun v => !(missFor c v)) = vl2 := by
  obtain ⟨vl, h1, h2, vl2, h3, h4⟩ :=
    rowsChecksE_missing_split schema profile c hcount df habs hcells hrules
  refine ⟨vl, ?_, h2, vl2, ?_, h4⟩
  · simp only [validateDataframe]
    rw [h1, except_bind_ok, except_pure_eq]
  · simp only [validateDataframe]
    rw [h3, except_bind_ok, except_pure_eq]

/-- Witness for the amended C6 theorem: schema ["a", "b"], single row with
only "b": one missing violation for "a", and the remainder equals the
validation of the reduced schema ["b"]. -/
theorem c6_amended_witness :
    ((exC6wschema.map FeatureColumn.name).count "a" = 1 ∧
     (∀ row ∈ exC6wdf, prGet row "a" = none)) ∧
    (∃ vl, validateDataframe exC6wdf exC6wschema exC6wprofile none =
        .ok (vl, exC6wdf.length) ∧
      vl.filter (missFor "a") =
        exC6wdf.map (fun row => missingViolation row.name "a") ∧
      ∃ vl2, validateDataframe exC6wdf
          (exC6wschema.filter (fun col => col.name != "a")) exC6wprofile
          none = .ok (vl2, exC6wdf.length) ∧
        vl.filter (fun v => !(missFor "a" v)) = vl2) :=
  ⟨⟨by decide, by decide⟩,
   c6_amended exC6wdf exC6wschema exC6wprofile "a" (by decide) (by decide)
     (by decide) (by decide)⟩

end FlowShield

namespace FlowShield

/-- Counterexample for C6: the schema declares "c", every row lacks "c", and
the single relation rule references only the present columns "n" and "d",
yet validate_dataframe raises ZeroDivisionError (d + eps is exactly 0), so it
does not complete without an exception. -/
theorem c6_counterexample :
    "c" ∈ exC6schema.map FeatureColumn.name ∧
    (∀ row ∈ exC6df, prGet row "c" = none) ∧
    pgetStr exC6rule.params "numerator" = "n" ∧
    pgetStr exC6rule.params "denominator" = "d" ∧
    validateDataframe exC6df exC6schema exC6profile none =
      .error PyErr.zeroDivision := by
  refine ⟨by decide, by decide, rfl, rfl, ?_⟩
  simp [validateDataframe, rowsChecksE, validateRowE, colChecksE, relChecksE,
    evaluateRelationE, validateValueE, prGet, rowE, floatOfVal, pdIsNA,
    nanPolicyD, smGet, exC6df, exC6schema, exC6profile, exC6rule, pget,
    pgetStr, pgetStrD, pgetF, missingViolation,
    show ((-1:ℚ)/1000000 + 1/1000000) = 0 by norm_num,
    show ((-1:ℚ)/1000000 + (1000000:ℚ)⁻¹) = 0 by norm_num]

end FlowShield

namespace FlowShield

/-- C8 (amended): with a declared category set, a non-null cell of a
categorical column is checked as follows: any value outside the non-empty
declared set (strings and non-strings alike) gets the `category` violation
whose expectation is the joined category list; the `category` violation with
the distinct expectation "string" is emitted for a non-string value only when
the out-of-set branch did not fire (empty declared set); an in-set string
passes. -/
theorem c8_amended (idx : Nat) (cn : String) (value : Val)
    (col : FeatureColumn) (profile : ConstraintProfile) (cs : List String)
    (hdt : col.dtype = "categorical") (hcs : col.categories = some cs)
    (hna : pdIsNA value = false) :
    validateValueE idx cn value col profile =
      .ok (if !cs.isEmpty && !valInCats value cs then
            [categoryViolation idx cn value profile
              (String.intercalate "," cs) ("Unexpected category for " ++ cn)]
          else if !isStr value then
            [categoryViolation idx cn value profile "string"
              ("Categorical value for " ++ cn ++ " must be a string")]
          else []) := by
  simp [validateValueE, hdt, hcs, hna, categoryViolation]
  split_ifs <;> rfl

/-- Witness for the amended C8 theorem: the non-string 1.0 against the
declared set \x7b"a", "b"\x7d takes the out-of-set branch with the joined
expectation "a,b", and the two expectation strings differ. -/
theorem c8_amended_witness :
    (exC8col.dtype = "categorical" ∧ exC8col.categories = some ["a", "b"] ∧
     pdIsNA (Val.fl (F.fin 1)) = false) ∧
    validateValueE 0 "c" (Val.fl (F.fin 1)) exC8col exProfileSafe =
      .ok (if !(["a", "b"] : List String).isEmpty &&
              !valInCats (Val.fl (F.fin 1)) ["a", "b"] then
            [categoryViolation 0 "c" (Val.fl (F.fin 1)) exProfileSafe
              (String.intercalate "," ["a", "b"])
              ("Unexpected category for " ++ "c")]
          else if !isStr (Val.fl (F.fin 1)) then
            [categoryViolation 0 "c" (Val.fl (F.fin 1)) exProfileSafe "string"
              ("Categorical value for " ++ "c" ++ " must be a string")]
          else []) :=
  ⟨⟨rfl, rfl, rfl⟩,
   c8_amended 0 "c" (Val.fl (F.fin 1)) exC8col exProfileSafe ["a", "b"]
     rfl rfl rfl⟩

/-- Counterexample for C8: a non-string value outside the declared set takes
the out-of-set branch first, so its expectation is the joined category list
"a,b", not the distinct "string" expectation the claim asserts. -/
theorem c8_counterexample :
    validateValueE 0 "c" (Val.fl (F.fin 1)) exC8col exProfileSafe =
      .ok [{ row_index := 0, column := some "c", rule_name := "category_check",
             violation_type := "category", severity := "warn",
             observed_value := .vv (Val.fl (F.fin 1)), expected := "a,b",
             message := "Unexpected category for c" }] ∧
    isStr (Val.fl (F.fin 1)) = false ∧ "a,b" ≠ "string" :=
  ⟨by decide, rfl, by decide⟩

end FlowShield
